import Mathlib

set_option autoImplicit false

/-!
# Task API: a shallow embedding of the request handlers, the task DAO and the token service

The Go program keeps its tasks in one MongoDB collection and reaches it through
`TaskDAO` (internal/models/task.go); the HTTP handlers (internal/handlers/task.go)
sit on top of the DAO, behind the `JWTAuth` middleware (internal/middleware/auth.go).

The collection is a list of BSON documents in insertion order.  Everything the
program obtains from outside itself is an explicit oracle: `Env` holds the readings
of `time.Now`, the values of `primitive.NewObjectID`, the failure (if any) of each
store round trip, the server's full-text matcher and the driver's time parser;
`JWTLib` holds the digests and the token codec of the crypto and JWT libraries.

Conventions of the model:
* a store round trip that fails leaves the collection as it was;
* the oracles range over more than the real environment can do (a fresh id may
  repeat, any round trip may fail), so what is proved for every `Env` holds for the
  real one;
* the members of a stored document have distinct names, as on the server.
-/

namespace TaskAPI

/-! ## Values -/

/-- The type primitive.ObjectID: twelve bytes, held as the big-endian number they spell. -/
abbrev ObjectID := Nat

/-- The zero ObjectID (primitive.NilObjectID). -/
def NilObjectID : ObjectID := 0

/-- A time.Time, in nanoseconds since the Unix epoch. -/
abbrev Time := Int

/-- The zero time.Time (January 1, year 1, 00:00:00 UTC). -/
def zeroTime : Time := -62135596800 * 1000000000

/-- A BSON value as this program can write it: what encoding/json puts into an
`interface{}` (nil, bool, float64, string, slice, map), plus the ObjectID and
datetime (milliseconds) that struct fields marshal to.  The payload of a number is
never inspected by any code path and is carried as an integer. -/
inductive Value where
  | null
  | bool (b : Bool)
  | num (n : Int)
  | str (s : String)
  | oid (o : ObjectID)
  | date (ms : Int)
  | arr (items : List Value)
  | obj (fields : List (String × Value))

/-- A BSON document (also a Go bson.M / map[string]interface{}): its members in order. -/
abbrev Doc := List (String × Value)

/-- Member lookup by key. -/
def Doc.get (d : Doc) (k : String) : Option Value := List.lookup k d

/-- Setting one member: overwrite in place when the key is present, append otherwise. -/
def Doc.set : Doc → String → Value → Doc
  | [], k, v => [(k, v)]
  | (k', v') :: rest, k, v => if k' = k then (k, v) :: rest else (k', v') :: Doc.set rest k v

/-- The update operator `$set`: every member of `updates` is set, in order. -/
def Doc.applySet (d : Doc) (updates : Doc) : Doc :=
  updates.foldl (fun acc kv => Doc.set acc kv.1 kv.2) d

/-! ## Hex form of an ObjectID -/

/-- Value of one hex digit, either case (encoding/hex). -/
def hexVal (c : Char) : Option Nat :=
  if 48 ≤ c.toNat ∧ c.toNat ≤ 57 then some (c.toNat - 48)
  else if 97 ≤ c.toNat ∧ c.toNat ≤ 102 then some (c.toNat - 87)
  else if 65 ≤ c.toNat ∧ c.toNat ≤ 70 then some (c.toNat - 55)
  else none

/-- Folding hex digits into a number; fails on the first non-hex character. -/
def hexFold : List Char → Nat → Option Nat
  | [], acc => some acc
  | c :: cs, acc =>
    match hexVal c with
    | some v => hexFold cs (acc * 16 + v)
    | none => none

/-- The function primitive.ObjectIDFromHex: exactly 24 hex digits, else an error. -/
def ObjectIDFromHex (s : String) : Option ObjectID :=
  if s.data.length = 24 then hexFold s.data 0 else none

/-- One lower-case hex digit. -/
def hexDigit (d : Nat) : Char := ['0', '1', '2', '3', '4', '5', '6', '7', '8', '9', 'a', 'b', 'c', 'd', 'e', 'f'].getD d '0'

/-- The method ObjectID.Hex: 24 lower-case hex digits. -/
def ObjectID.Hex (o : ObjectID) : String :=
  String.mk ((List.range 24).map (fun i => hexDigit (o / 16 ^ (23 - i) % 16)))

/-- The UTF-8 bytes of a Go string. -/
def utf8Bytes (s : String) : List Nat :=
  (s.data.map (fun c => (String.utf8EncodeChar c).map UInt8.toNat)).flatten

/-- Big-endian number spelled by a list of bytes. -/
def beNat (bs : List Nat) : Nat := bs.foldl (fun acc b => acc * 256 + b) 0

/-! ## The task model (internal/models/task.go) -/

/-- The constant StatusOpen. -/
def StatusOpen : String := "open"
/-- The constant StatusInProgress. -/
def StatusInProgress : String := "in_progress"
/-- The constant StatusDone. -/
def StatusDone : String := "done"
/-- The constant RoleUser (internal/models/user.go). -/
def RoleUser : String := "user"
/-- The constant RoleAdmin (internal/models/user.go). -/
def RoleAdmin : String := "admin"

/-- The struct models.Task. -/
structure Task where
  ID : ObjectID
  Title : String
  Description : String
  Status : String
  OwnerID : ObjectID
  CreatedAt : Time
  UpdatedAt : Time
  DeletedAt : Option Time
  deriving DecidableEq, Repr

/-- The struct models.TaskFilter. -/
structure TaskFilter where
  OwnerID : Option ObjectID
  Status : Option String
  Search : String
  Limit : Int
  Offset : Int
  deriving DecidableEq, Repr

/-- BSON datetime of a time.Time: whole milliseconds since the epoch, rounded down. -/
def toDateTime (t : Time) : Int := t / 1000000

/-- The time.Time read back from a BSON datetime. -/
def ofDateTime (ms : Int) : Time := ms * 1000000

/-- The members a Task marshals to after `_id`, following the bson struct tags:
`deleted_at` is omitted when the pointer is nil (omitempty). -/
def Task.toDocBody (t : Task) : Doc :=
  [("title", .str t.Title), ("description", .str t.Description), ("status", .str t.Status),
   ("owner_id", .oid t.OwnerID), ("created_at", .date (toDateTime t.CreatedAt)),
   ("updated_at", .date (toDateTime t.UpdatedAt))] ++
  (match t.DeletedAt with
   | none => []
   | some d => [("deleted_at", .date (toDateTime d))])

/-! ## The world -/

/-- Why a store call returned an error. -/
inductive StoreErr where
  | NoDocuments
  | Decode
  | DuplicateKey
  | Fault (msg : String)
  deriving DecidableEq, Repr

/-- One operation issued on the store: the four on the `tasks` collection, and the
client's Ping. -/
inductive CollOp where
  | InsertOne (doc : Doc)
  | FindOne (id : ObjectID)
  | UpdateOne (id : ObjectID) (set : Doc)
  | Find (query : TaskFilter)
  | Ping

/-- What the program reads from outside itself. -/
structure Env where
  /-- Successive readings of time.Now. -/
  clock : Nat → Time
  /-- Successive values of primitive.NewObjectID. -/
  oids : Nat → ObjectID
  /-- Failure injected into the n-th store round trip (timeout, lost connection, server error). -/
  faults : Nat → Option String
  /-- The server-side full-text matcher behind `$text`. -/
  textMatch : String → Doc → Bool
  /-- The driver's parser for a time held as a string. -/
  parseTime : String → Option Time

/-- The mutable state: the collection, the operations issued on it so far (oldest
first), and how many clock readings and fresh ids have been taken. -/
structure World where
  tasks : List Doc
  trace : List CollOp
  reads : Nat
  minted : Nat

/-- One reading of time.Now. -/
def timeNow (e : Env) (w : World) : Time × World :=
  (e.clock w.reads, { w with reads := w.reads + 1 })

/-- One call of primitive.NewObjectID. -/
def NewObjectID (e : Env) (w : World) : ObjectID × World :=
  (e.oids w.minted, { w with minted := w.minted + 1 })

/-- A store round trip starts: the operation is appended to the trace and the
oracle says whether it fails. -/
def roundTrip (e : Env) (w : World) (op : CollOp) : Option String × World :=
  (e.faults w.trace.length, { w with trace := w.trace ++ [op] })

/-! ## Query matching and decoding (the MongoDB server and the Go driver) -/

/-- Equality match of a query member `{field: id}` against a stored value: the value
is that ObjectID, or an array holding it. -/
def Value.matchesOid : Value → ObjectID → Bool
  | .oid o, id => o == id
  | .arr items, id => items.any (fun v => match v with | .oid o => o == id | _ => false)
  | _, _ => false

/-- Equality match of a query member `{field: s}` against a stored value: the value
is that string, or an array holding it. -/
def Value.matchesStr : Value → String → Bool
  | .str t, s => t == s
  | .arr items, s => items.any (fun v => match v with | .str t => t == s | _ => false)
  | _, _ => false

/-- The query member `"_id": id`. -/
def hasID (id : ObjectID) (d : Doc) : Bool :=
  match d.get "_id" with
  | some v => v.matchesOid id
  | none => false

/-- The query member `"deleted_at": {"$exists": false}`. -/
def notDeleted (d : Doc) : Bool := (d.get "deleted_at").isNone

/-- The filter shared by GetByID, Update and Delete:
`{"_id": id, "deleted_at": {"$exists": false}}`. -/
def liveWithID (id : ObjectID) (d : Doc) : Bool := hasID id d && notDeleted d

/-- Driver decoding of a member into a Go string field (StringCodec): a missing
member leaves the zero value, a string is taken as is, null gives the empty string,
an ObjectID its hex form; every other type is an error. -/
def decodeString : Option Value → Option String
  | none => some ""
  | some (.str s) => some s
  | some .null => some ""
  | some (.oid o) => some o.Hex
  | some _ => none

/-- Driver decoding of a member into an ObjectID field: an ObjectID, null, a hex
string, or a string of exactly twelve bytes. -/
def decodeObjectID : Option Value → Option ObjectID
  | none => some NilObjectID
  | some (.oid o) => some o
  | some .null => some NilObjectID
  | some (.str s) =>
    match ObjectIDFromHex s with
    | some o => some o
    | none => if (utf8Bytes s).length = 12 then some (beNat (utf8Bytes s)) else none
  | some _ => none

/-- Driver decoding of a member into a time.Time field (TimeCodec): a datetime,
null, or a string the driver's parser accepts. -/
def decodeTime (e : Env) : Option Value → Option Time
  | none => some zeroTime
  | some (.date ms) => some (ofDateTime ms)
  | some .null => some zeroTime
  | some (.str s) => e.parseTime s
  | some _ => none

/-- Driver decoding of a member into a `*time.Time` field: missing or null leaves
the pointer nil. -/
def decodeTimePtr (e : Env) : Option Value → Option (Option Time)
  | none => some none
  | some .null => some none
  | some v => (decodeTime e (some v)).map some

/-- Decoding a stored document into a models.Task, member by member along the bson
struct tags; any member of an undecodable type fails the whole decode. -/
def decodeTask (e : Env) (d : Doc) : Option Task :=
  match decodeObjectID (d.get "_id"), decodeString (d.get "title"),
        decodeString (d.get "description"), decodeString (d.get "status"),
        decodeObjectID (d.get "owner_id"), decodeTime e (d.get "created_at"),
        decodeTime e (d.get "updated_at"), decodeTimePtr e (d.get "deleted_at") with
  | some id, some title, some desc, some status, some owner, some created, some updated, some deleted =>
    some { ID := id, Title := title, Description := desc, Status := status, OwnerID := owner,
           CreatedAt := created, UpdatedAt := updated, DeletedAt := deleted }
  | _, _, _, _, _, _, _, _ => none

/-- Decoding a cursor's documents in order (cursor.All); the first failure fails all. -/
def decodeAll (e : Env) : List Doc → Option (List Task)
  | [] => some []
  | d :: ds =>
    match decodeTask e d, decodeAll e ds with
    | some t, some ts => some (t :: ts)
    | _, _ => none

/-! ## Collection operations -/

/-- The method Collection.InsertOne on a Task: the struct is marshalled along its
bson tags; a zero ID is omitted (omitempty) and the driver then supplies a fresh one;
the server refuses a document whose `_id` is already present. -/
def Collection.InsertOne (e : Env) (w : World) (t : Task) : Option StoreErr × World :=
  let (id, w₁) := if t.ID = NilObjectID then NewObjectID e w else (t.ID, w)
  let doc : Doc := ("_id", .oid id) :: t.toDocBody
  let (fault, w₂) := roundTrip e w₁ (.InsertOne doc)
  match fault with
  | some msg => (some (.Fault msg), w₂)
  | none =>
    if w₂.tasks.any (hasID id) then (some .DuplicateKey, w₂)
    else (none, { w₂ with tasks := w₂.tasks ++ [doc] })

/-- The method Collection.FindOne with the filter `liveWithID id`: the first matching
document, or ErrNoDocuments (surfaced by SingleResult.Decode). -/
def Collection.FindOne (e : Env) (w : World) (id : ObjectID) : Except StoreErr Doc × World :=
  let (fault, w₁) := roundTrip e w (.FindOne id)
  match fault with
  | some msg => (.error (.Fault msg), w₁)
  | none =>
    match w₁.tasks.find? (liveWithID id) with
    | none => (.error .NoDocuments, w₁)
    | some d => (.ok d, w₁)

/-- Rewriting the first element that satisfies `p`. -/
def updateFirst (p : Doc → Bool) (f : Doc → Doc) : List Doc → List Doc
  | [] => []
  | d :: ds => if p d then f d :: ds else d :: updateFirst p f ds

/-- The method Collection.UpdateOne with the filter `liveWithID id` and the update
`{"$set": set}`: the first matching document is rewritten.  When nothing matches the
driver returns a result with MatchedCount 0 and a nil error.  Member names are plain
field names; whatever else makes the server refuse an update is a fault of `Env`. -/
def Collection.UpdateOne (e : Env) (w : World) (id : ObjectID) (set : Doc) : Option StoreErr × World :=
  let (fault, w₁) := roundTrip e w (.UpdateOne id set)
  match fault with
  | some msg => (some (.Fault msg), w₁)
  | none => (none, { w₁ with tasks := updateFirst (liveWithID id) (fun d => d.applySet set) w₁.tasks })

/-- The query built by TaskDAO.List. -/
def listQuery (e : Env) (filter : TaskFilter) (d : Doc) : Bool :=
  notDeleted d
  && (match filter.OwnerID with
      | none => true
      | some o => match d.get "owner_id" with
        | some v => v.matchesOid o
        | none => false)
  && (match filter.Status with
      | none => true
      | some s => match d.get "status" with
        | some v => v.matchesStr s
        | none => false)
  && (if filter.Search = "" then true else e.textMatch filter.Search d)

/-- Sort key of `created_at`: the BSON type bracket, then the value for a number or a
datetime.  Every document this program writes holds a datetime there; within the
other brackets documents are left in insertion order. -/
def createdKey (d : Doc) : Int × Int :=
  match d.get "created_at" with
  | none => (1, 0)
  | some .null => (1, 0)
  | some (.num n) => (2, n)
  | some (.str _) => (3, 0)
  | some (.obj _) => (4, 0)
  | some (.arr _) => (5, 0)
  | some (.oid _) => (7, 0)
  | some (.bool _) => (8, 0)
  | some (.date ms) => (9, ms)

/-- The order `{"created_at": -1}`: `a` may stand before `b`. -/
def newerFirst (a b : Doc) : Prop :=
  (createdKey b).1 < (createdKey a).1 ∨ ((createdKey b).1 = (createdKey a).1 ∧ (createdKey b).2 ≤ (createdKey a).2)

instance newerFirstDecidable : DecidableRel newerFirst := fun a b => by
  unfold newerFirst; exact inferInstance

/-- The documents a Find with the query, sort, skip and limit of TaskDAO.List yields,
in cursor order: filter, sort newest first, skip, limit. -/
def findDocs (e : Env) (tasks : List Doc) (filter : TaskFilter) : List Doc :=
  let sorted := (tasks.filter (listQuery e filter)).insertionSort newerFirst
  let skipped := if filter.Offset > 0 then sorted.drop filter.Offset.toNat else sorted
  if filter.Limit > 0 then skipped.take filter.Limit.toNat else skipped

/-- The method Collection.Find followed by cursor.All, which decodes every document
of the cursor. -/
def Collection.Find (e : Env) (w : World) (filter : TaskFilter) : Except StoreErr (List Task) × World :=
  let (fault, w₁) := roundTrip e w (.Find filter)
  match fault with
  | some msg => (.error (.Fault msg), w₁)
  | none =>
    match decodeAll e (findDocs e w₁.tasks filter) with
    | none => (.error .Decode, w₁)
    | some ts => (.ok ts, w₁)

/-! ## TaskDAO (internal/models/task.go) -/

/-- The method TaskDAO.Create: a fresh id and two clock readings are written into the
task, which is then inserted.  The caller's task is mutated whether or not the
insert succeeds, so it is returned along with the error. -/
def TaskDAO.Create (e : Env) (w : World) (task : Task) : (Task × Option StoreErr) × World :=
  let (id, w₁) := NewObjectID e w
  let (t₁, w₂) := timeNow e w₁
  let (t₂, w₃) := timeNow e w₂
  let task₁ : Task := { task with ID := id, CreatedAt := t₁, UpdatedAt := t₂ }
  let (err, w₄) := Collection.InsertOne e w₃ task₁
  ((task₁, err), w₄)

/-- The method TaskDAO.GetByID. -/
def TaskDAO.GetByID (e : Env) (w : World) (id : ObjectID) : Except StoreErr Task × World :=
  match Collection.FindOne e w id with
  | (.error err, w₁) => (.error err, w₁)
  | (.ok d, w₁) =>
    match decodeTask e d with
    | none => (.error .Decode, w₁)
    | some t => (.ok t, w₁)

/-- The method TaskDAO.Update: `updated_at` is stamped into the field map, which is
then applied with `$set`; the UpdateResult is discarded and only the error returned. -/
def TaskDAO.Update (e : Env) (w : World) (id : ObjectID) (updates : Doc) : Option StoreErr × World :=
  let (t, w₁) := timeNow e w
  Collection.UpdateOne e w₁ id (Doc.set updates "updated_at" (.date (toDateTime t)))

/-- The method TaskDAO.Delete: `deleted_at` and `updated_at` are set from two clock
readings; the UpdateResult is discarded and only the error returned. -/
def TaskDAO.Delete (e : Env) (w : World) (id : ObjectID) : Option StoreErr × World :=
  let (t₁, w₁) := timeNow e w
  let (t₂, w₂) := timeNow e w₁
  Collection.UpdateOne e w₂ id [("deleted_at", .date (toDateTime t₁)), ("updated_at", .date (toDateTime t₂))]

/-- The method TaskDAO.List. -/
def TaskDAO.List (e : Env) (w : World) (filter : TaskFilter) : Except StoreErr (List Task) × World :=
  Collection.Find e w filter

/-! ## The user model (internal/models/user.go) -/

/-- The struct models.User. -/
structure User where
  ID : ObjectID
  Email : String
  Password : String
  Role : String
  CreatedAt : Time
  UpdatedAt : Time
  deriving DecidableEq, Repr

/-- The struct models.LoginRequest. -/
structure LoginRequest where
  Email : String
  Password : String
  deriving DecidableEq, Repr

/-! ## Responses (internal/utils/response.go) -/

/-- What a handler hands to the JSON encoder. -/
inductive Payload where
  /-- A models.Task value. -/
  | task (t : Task)
  /-- A `*models.Task`, possibly nil. -/
  | taskPtr (t : Option Task)
  /-- A `[]*models.Task`. -/
  | tasks (ts : List Task)
  /-- The struct utils.ErrorResponse. -/
  | ErrorResponse (error message : String)
  /-- The struct utils.SuccessResponse. -/
  | SuccessResponse (data : Payload)
  /-- A body written as plain text (http.Error). -/
  | text (s : String)
  /-- The struct models.LoginResponse. -/
  | LoginResponse (token : String) (user : User)
  /-- A `map[string]string`, as its entries. -/
  | stringMap (entries : List (String × String))
  deriving DecidableEq, Repr

/-- An HTTP response: status code and, unless the handler wrote none, the encoded value. -/
structure Response where
  status : Nat
  body : Option Payload
  deriving DecidableEq, Repr

/-- The function utils.WriteJSON. -/
def WriteJSON (status : Nat) (data : Payload) : Response := { status := status, body := some data }

/-- The function utils.WriteError. -/
def WriteError (status : Nat) (errorType message : String) : Response :=
  WriteJSON status (.ErrorResponse errorType message)

/-- The function utils.WriteSuccess. -/
def WriteSuccess (data : Payload) : Response := WriteJSON 200 (.SuccessResponse data)

/-! ## Validation (internal/utils/validation.go and the validate tags of models.Task) -/

/-- One validator.FieldError: the struct field and the tag that failed. -/
structure FieldError where
  Field : String
  Tag : String
  deriving DecidableEq, Repr

/-- Title is tagged `required,min=1,max=200`; lengths count runes; the first failing tag is reported. -/
def validateTitle (s : String) : List FieldError :=
  if s = "" then [⟨"Title", "required"⟩]
  else if s.length < 1 then [⟨"Title", "min"⟩]
  else if s.length > 200 then [⟨"Title", "max"⟩]
  else []

/-- Description is tagged `max=1000`. -/
def validateDescription (s : String) : List FieldError :=
  if s.length > 1000 then [⟨"Description", "max"⟩] else []

/-- Status is tagged `required,oneof=open in_progress done`. -/
def validateStatus (s : String) : List FieldError :=
  if s = "" then [⟨"Status", "required"⟩]
  else if s = "open" ∨ s = "in_progress" ∨ s = "done" then []
  else [⟨"Status", "oneof"⟩]

/-- The function utils.ValidateStruct on a models.Task: the field errors in struct
order; the empty list stands for a nil error. -/
def ValidateStruct (t : Task) : List FieldError :=
  validateTitle t.Title ++ validateDescription t.Description ++ validateStatus t.Status

/-- The function utils.FormatValidationError. -/
def FormatValidationError (errs : List FieldError) : String :=
  ", ".intercalate (errs.map (fun fe => fe.Field.toLower ++ " is " ++ fe.Tag))

/-! ## Handlers (internal/handlers/task.go) -/

/-- The struct middleware.Claims: identity, role and, of the embedded
jwt.RegisteredClaims, the three dates (whole seconds since the epoch, absent when nil). -/
structure Claims where
  UserID : ObjectID
  Role : String
  ExpiresAt : Option Int
  NotBefore : Option Int
  IssuedAt : Option Int
  deriving DecidableEq, Repr

/-- The method TaskHandler.Create.  `user` is what GetUserFromContext yields and
`body` the models.Task that encoding/json decoded from the request (none when
decoding fails). -/
def TaskHandler.Create (e : Env) (w : World) (user : Option Claims) (body : Option Task) : Response × World :=
  match user with
  | none => (WriteError 401 "unauthorized" "User not found in context", w)
  | some user =>
    match body with
    | none => (WriteError 400 "invalid_request" "Invalid JSON", w)
    | some task =>
      let task₁ : Task := { task with OwnerID := user.UserID }
      let task₂ : Task := if task₁.Status = "" then { task₁ with Status := StatusOpen } else task₁
      match ValidateStruct task₂ with
      | err :: errs => (WriteError 400 "validation_error" (FormatValidationError (err :: errs)), w)
      | [] =>
        match TaskDAO.Create e w task₂ with
        | ((_, some _), w₁) => (WriteError 500 "database_error" "Failed to create task", w₁)
        | ((task₃, none), w₁) => (WriteJSON 201 (.task task₃), w₁)

/-- The method TaskHandler.GetByID. -/
def TaskHandler.GetByID (e : Env) (w : World) (idStr : String) : Response × World :=
  match ObjectIDFromHex idStr with
  | none => (WriteError 400 "invalid_id" "Invalid task ID", w)
  | some id =>
    match TaskDAO.GetByID e w id with
    | (.error _, w₁) => (WriteError 404 "not_found" "Task not found", w₁)
    | (.ok task, w₁) => (WriteSuccess (.taskPtr (some task)), w₁)

/-- The map allowedFields of TaskHandler.Update. -/
def allowedFields (key : String) : Bool :=
  key == "title" || key == "description" || key == "status"

/-- The method TaskHandler.Update.  `body` is the field map that encoding/json decoded
from the request, as its members in order (a later duplicate of a key overrides an
earlier one, as in the decoded Go map); none when decoding fails. -/
def TaskHandler.Update (e : Env) (w : World) (idStr : String) (user : Option Claims) (body : Option Doc) : Response × World :=
  match ObjectIDFromHex idStr with
  | none => (WriteError 400 "invalid_id" "Invalid task ID", w)
  | some id =>
    match user with
    | none => (WriteError 401 "unauthorized" "User not found in context", w)
    | some user =>
      match TaskDAO.GetByID e w id with
      | (.error _, w₁) => (WriteError 404 "not_found" "Task not found", w₁)
      | (.ok task, w₁) =>
        if task.OwnerID ≠ user.UserID ∧ user.Role ≠ RoleAdmin then
          (WriteError 403 "forbidden" "Cannot update task owned by another user", w₁)
        else
          match body with
          | none => (WriteError 400 "invalid_request" "Invalid JSON", w₁)
          | some updates =>
            let updateDoc : Doc := updates.filter (fun kv => allowedFields kv.1)
            if updateDoc.length = 0 then
              (WriteError 400 "no_updates" "No valid fields to update", w₁)
            else
              match TaskDAO.Update e w₁ id updateDoc with
              | (some _, w₂) => (WriteError 500 "database_error" "Failed to update task", w₂)
              | (none, w₂) =>
                match TaskDAO.GetByID e w₂ id with
                | (.ok updatedTask, w₃) => (WriteSuccess (.taskPtr (some updatedTask)), w₃)
                | (.error _, w₃) => (WriteSuccess (.taskPtr none), w₃)

/-- The method TaskHandler.Delete. -/
def TaskHandler.Delete (e : Env) (w : World) (idStr : String) (user : Option Claims) : Response × World :=
  match ObjectIDFromHex idStr with
  | none => (WriteError 400 "invalid_id" "Invalid task ID", w)
  | some id =>
    match user with
    | none => (WriteError 401 "unauthorized" "User not found in context", w)
    | some user =>
      match TaskDAO.GetByID e w id with
      | (.error _, w₁) => (WriteError 404 "not_found" "Task not found", w₁)
      | (.ok task, w₁) =>
        if task.OwnerID ≠ user.UserID ∧ user.Role ≠ RoleAdmin then
          (WriteError 403 "forbidden" "Cannot delete task owned by another user", w₁)
        else
          match TaskDAO.Delete e w₁ id with
          | (some _, w₂) => (WriteError 500 "database_error" "Failed to delete task", w₂)
          | (none, w₂) => ({ status := 204, body := none }, w₂)

/-- The method url.Values.Get: the first value of the key, or the empty string. -/
def queryGet (query : List (String × String)) (key : String) : String :=
  (List.lookup key query).getD ""

/-- Folding decimal digits into a number; fails on the first other character. -/
def digitsFold : List Char → Nat → Option Nat
  | [], acc => some acc
  | c :: cs, acc =>
    if 48 ≤ c.toNat ∧ c.toNat ≤ 57 then digitsFold cs (acc * 10 + (c.toNat - 48)) else none

/-- The call strconv.ParseInt(s, 10, 64): an optional sign, at least one decimal
digit, nothing else, and a value within int64. -/
def ParseInt (s : String) : Option Int :=
  match s.data with
  | [] => none
  | c :: cs =>
    let neg : Bool := c == '-'
    let ds : List Char := if c == '+' || c == '-' then cs else c :: cs
    if ds.isEmpty then none
    else
      match digitsFold ds 0 with
      | none => none
      | some n =>
        if neg then (if n ≤ 2 ^ 63 then some (-(n : Int)) else none)
        else (if n < 2 ^ 63 then some (n : Int) else none)

/-- The `limit` block of TaskHandler.List: a parsable, positive limit overrides the default. -/
def applyLimit (f : TaskFilter) (limitStr : String) : TaskFilter :=
  if limitStr ≠ "" then
    match ParseInt limitStr with
    | some limit => if limit > 0 then { f with Limit := limit } else f
    | none => f
  else f

/-- The `offset` block of TaskHandler.List: a parsable, non-negative offset overrides the default. -/
def applyOffset (f : TaskFilter) (offsetStr : String) : TaskFilter :=
  if offsetStr ≠ "" then
    match ParseInt offsetStr with
    | some offset => if offset ≥ 0 then { f with Offset := offset } else f
    | none => f
  else f

/-- The `status` block of TaskHandler.List. -/
def applyStatus (f : TaskFilter) (statusStr : String) : TaskFilter :=
  if statusStr ≠ "" then { f with Status := some statusStr } else f

/-- The `owner` block of TaskHandler.List: only a well-formed id is taken. -/
def applyOwner (f : TaskFilter) (ownerStr : String) : TaskFilter :=
  if ownerStr ≠ "" then
    match ObjectIDFromHex ownerStr with
    | some ownerID => { f with OwnerID := some ownerID }
    | none => f
  else f

/-- The `search` block of TaskHandler.List. -/
def applySearch (f : TaskFilter) (search : String) : TaskFilter :=
  if search ≠ "" then { f with Search := search } else f

/-- The last block of TaskHandler.List: a caller who is not an admin is scoped to
their own id. -/
def applyScope (f : TaskFilter) (user : Claims) : TaskFilter :=
  if user.Role ≠ RoleAdmin then { f with OwnerID := some user.UserID } else f

/-- The TaskFilter that TaskHandler.List builds from the caller and the query string,
block by block in source order, starting from limit 10 and offset 0. -/
def buildFilter (user : Claims) (query : List (String × String)) : TaskFilter :=
  applyScope
    (applySearch
      (applyOwner
        (applyStatus
          (applyOffset
            (applyLimit { OwnerID := none, Status := none, Search := "", Limit := 10, Offset := 0 }
              (queryGet query "limit"))
            (queryGet query "offset"))
          (queryGet query "status"))
        (queryGet query "owner"))
      (queryGet query "search"))
    user

/-- The method TaskHandler.List. -/
def TaskHandler.List (e : Env) (w : World) (user : Option Claims) (query : List (String × String)) : Response × World :=
  match user with
  | none => (WriteError 401 "unauthorized" "User not found in context", w)
  | some user =>
    match TaskDAO.List e w (buildFilter user query) with
    | (.error _, w₁) => (WriteError 500 "database_error" "Failed to list tasks", w₁)
    | (.ok tasks, w₁) => (WriteSuccess (.tasks tasks), w₁)

/-! ## Routing (internal/routes/routes.go) -/

/-- One request to a task endpoint, after the router has matched it: the claims
found in the request context, the `id` URL parameter, the query string and the
decoded body, as each handler uses them. -/
inductive Request where
  | Create (user : Option Claims) (body : Option Task)
  | List (user : Option Claims) (query : List (String × String))
  | GetByID (idStr : String)
  | Update (idStr : String) (user : Option Claims) (body : Option Doc)
  | Delete (idStr : String) (user : Option Claims)

/-- Dispatch of one request to its handler. -/
def serve (e : Env) (w : World) : Request → Response × World
  | .Create user body => TaskHandler.Create e w user body
  | .List user query => TaskHandler.List e w user query
  | .GetByID idStr => TaskHandler.GetByID e w idStr
  | .Update idStr user body => TaskHandler.Update e w idStr user body
  | .Delete idStr user => TaskHandler.Delete e w idStr user

/-- The world after serving a sequence of requests one after the other. -/
def serveAll (e : Env) (w : World) : List Request → World
  | [] => w
  | r :: rs => serveAll e (serve e w r).2 rs

/-! ## Tokens (internal/services/auth.go and internal/middleware/auth.go) -/

/-- Reduction of an integer to the int64 it wraps to. -/
def wrapInt64 (x : Int) : Int := (x + 2 ^ 63) % 2 ^ 64 - 2 ^ 63

/-- The constant time.Second, in nanoseconds. -/
def Second : Int := 1000000000

/-- The constant time.Hour, in nanoseconds. -/
def Hour : Int := 3600000000000

/-- The function jwt.NewNumericDate: the time cut down to jwt.TimePrecision (one
second), held as whole seconds since the epoch. -/
def NewNumericDate (t : Time) : Int := t / Second

/-- A token as the parser sees it once split into its three segments and decoded. -/
structure ParsedToken where
  /-- The `alg` member of the header. -/
  alg : String
  /-- The decoded second segment. -/
  claims : Claims
  /-- The first two segments joined by a dot, as they stand in the token. -/
  signingString : String
  /-- The decoded third segment. -/
  signature : List Nat
  deriving DecidableEq, Repr

/-- What the token code takes from crypto and from the JWT library's codec. -/
structure JWTLib where
  /-- The digest SHA-256 (block size 64). -/
  sha256 : List Nat → List Nat
  /-- The digest SHA-384 (block size 128). -/
  sha384 : List Nat → List Nat
  /-- The digest SHA-512 (block size 128). -/
  sha512 : List Nat → List Nat
  /-- The method Token.SigningString of an HS256 token with these claims: the
  base64url segments of header and claims, joined by a dot. -/
  signingString : Claims → String
  /-- The method EncodeSegment on a signature. -/
  encodeSegment : List Nat → String
  /-- Splitting a token string into three segments and decoding each; none when the
  token is malformed. -/
  parse : String → Option ParsedToken

/-- The construction HMAC (crypto/hmac): a key longer than the block is hashed, the
key is padded with zero bytes to the block size, and the message is hashed under the
inner and then the outer pad. -/
def hmac (H : List Nat → List Nat) (blockSize : Nat) (key msg : List Nat) : List Nat :=
  let key₁ := if key.length > blockSize then H key else key
  let padded := key₁ ++ List.replicate (blockSize - key₁.length) 0
  H (padded.map (fun b => Nat.xor b 0x5c) ++ H (padded.map (fun b => Nat.xor b 0x36) ++ msg))

/-- The method Verify of the signing method named by `alg`, given a `[]byte` key: the
three HMAC methods compare the signature with the HMAC of the signing string; every
other method refuses such a key (or is not registered). -/
def verifySignature (lib : JWTLib) (alg signingString : String) (signature key : List Nat) : Bool :=
  if alg = "HS256" then decide (hmac lib.sha256 64 key (utf8Bytes signingString) = signature)
  else if alg = "HS384" then decide (hmac lib.sha384 128 key (utf8Bytes signingString) = signature)
  else if alg = "HS512" then decide (hmac lib.sha512 128 key (utf8Bytes signingString) = signature)
  else false

/-- The default claims validation of jwt v5 at the instant `now`: not expired (the
instant is before `exp`) and not used early (the instant is not before `nbf`); a nil
date is not checked, and `iat` is not checked by default. -/
def validClaims (now : Time) (c : Claims) : Bool :=
  (match c.ExpiresAt with
   | none => true
   | some exp => decide (now < exp * Second))
  && (match c.NotBefore with
      | none => true
      | some nbf => decide (nbf * Second ≤ now))

/-- The call jwt.ParseWithClaims with a key function that returns `key`: parse,
verify the signature, then validate the claims against one clock reading. -/
def ParseWithClaims (lib : JWTLib) (e : Env) (w : World) (tokenString : String) (key : List Nat) : Option Claims × World :=
  match lib.parse tokenString with
  | none => (none, w)
  | some tok =>
    if verifySignature lib tok.alg tok.signingString tok.signature key then
      let (now, w₁) := timeNow e w
      if validClaims now tok.claims then (some tok.claims, w₁) else (none, w₁)
    else (none, w)

/-- The struct services.AuthService. -/
structure AuthService where
  jwtSecret : String
  /-- A Go int (64 bits). -/
  expiryHours : Int

/-- The claims AuthService.GenerateToken builds from two clock readings: the expiry
is the first reading plus `time.Duration(expiryHours) * time.Hour`, a product in
int64 that wraps. -/
def AuthService.claimsAt (s : AuthService) (t₁ t₂ : Time) (userID : ObjectID) (role : String) : Claims :=
  { UserID := userID, Role := role,
    ExpiresAt := some (NewNumericDate (t₁ + wrapInt64 (s.expiryHours * Hour))),
    NotBefore := none,
    IssuedAt := some (NewNumericDate t₂) }

/-- The method AuthService.GenerateToken: the claims are signed with HS256 under the
bytes of the secret and the three segments joined by dots. -/
def AuthService.GenerateToken (lib : JWTLib) (s : AuthService) (e : Env) (w : World) (userID : ObjectID) (role : String) : String × World :=
  let (t₁, w₁) := timeNow e w
  let (t₂, w₂) := timeNow e w₁
  let claims := s.claimsAt t₁ t₂ userID role
  let sstr := lib.signingString claims
  (sstr ++ "." ++ lib.encodeSegment (hmac lib.sha256 64 (utf8Bytes s.jwtSecret) (utf8Bytes sstr)), w₂)

/-- Removal of a leading list, when it is there. -/
def dropLeading : List Char → List Char → Option (List Char)
  | [], rest => some rest
  | _ :: _, [] => none
  | p :: ps, c :: cs => if p = c then dropLeading ps cs else none

/-- The function strings.TrimPrefix. -/
def TrimPrefix (s pre : String) : String :=
  match dropLeading pre.data s.data with
  | some rest => String.mk rest
  | none => s

/-- The function http.Error with status 401: the text and a newline, as plain text. -/
def unauthorized (text : String) : Response := { status := 401, body := some (.text (text ++ "\n")) }

/-- The middleware JWTAuth on the Authorization header of a request: the claims it
puts into the request context for the next handler, or the 401 it answers itself. -/
def JWTAuth (lib : JWTLib) (jwtSecret : String) (e : Env) (w : World) (authHeader : String) : Except Response Claims × World :=
  if authHeader = "" then
    (.error (unauthorized "\x7b\"error\":\"missing_authorization\",\"message\":\"Authorization header required\"\x7d"), w)
  else
    if TrimPrefix authHeader "Bearer " = authHeader then
      (.error (unauthorized "\x7b\"error\":\"invalid_authorization\",\"message\":\"Bearer token required\"\x7d"), w)
    else
      match ParseWithClaims lib e w (TrimPrefix authHeader "Bearer ") (utf8Bytes jwtSecret) with
      | (none, w₁) =>
        (.error (unauthorized "\x7b\"error\":\"invalid_token\",\"message\":\"Invalid or expired token\"\x7d"), w₁)
      | (some claims, w₁) => (.ok claims, w₁)

/-! ## The JSON object of a response body -/

/-- The member names of the JSON object a models.Task encodes to, along its json
struct tags: `deleted_at` is left out when the pointer is nil (omitempty). -/
def taskMembers (t : Task) : List String :=
  ["id", "title", "description", "status", "owner_id", "created_at", "updated_at"] ++
  (match t.DeletedAt with
   | none => []
   | some _ => ["deleted_at"])

/-- The member names of the JSON object that encoding/json writes for a payload,
along the json struct tags; empty for what does not encode to an object (null, an
array, plain text).  The `data` member of utils.SuccessResponse is tagged omitempty,
which leaves out a nil interface only: every payload here is a typed value, so the
member is written (as null for a nil pointer). -/
def Payload.members : Payload → List String
  | .task t => taskMembers t
  | .taskPtr (some t) => taskMembers t
  | .taskPtr none => []
  | .tasks _ => []
  | .ErrorResponse _ _ => ["error", "message"]
  | .SuccessResponse _ => ["data"]
  | .text _ => []
  | .LoginResponse _ _ => ["token", "user"]
  | .stringMap entries => entries.map (fun kv => kv.1)

/-! ## Login and health (internal/services/auth.go, internal/handlers/auth.go, internal/handlers/health.go) -/

/-- The function hex.EncodeToString: two lower-case hex digits per byte. -/
def hexEncode (bs : List Nat) : String :=
  String.mk (bs.map (fun b => [hexDigit (b / 16 % 16), hexDigit (b % 16)])).flatten

/-- The method AuthService.HashPassword: the hex form of the SHA-256 digest. -/
def AuthService.HashPassword (lib : JWTLib) (password : String) : String :=
  hexEncode (lib.sha256 (utf8Bytes password))

/-- The method AuthService.VerifyPassword. -/
def AuthService.VerifyPassword (lib : JWTLib) (password hash : String) : Bool :=
  AuthService.HashPassword lib password == hash

/-- The method AuthService.CreateDefaultUser: a fresh id, the fixed admin account,
two clock readings. -/
def AuthService.CreateDefaultUser (lib : JWTLib) (e : Env) (w : World) : User × World :=
  let (userID, w₁) := NewObjectID e w
  let (t₁, w₂) := timeNow e w₁
  let (t₂, w₃) := timeNow e w₂
  ({ ID := userID, Email := "admin@example.com", Password := AuthService.HashPassword lib "admin123",
     Role := RoleAdmin, CreatedAt := t₁, UpdatedAt := t₂ }, w₃)

/-- Email is tagged `required,email`; `isEmail` is the validator's email test. -/
def validateEmail (isEmail : String → Bool) (s : String) : List FieldError :=
  if s = "" then [⟨"Email", "required"⟩]
  else if isEmail s then []
  else [⟨"Email", "email"⟩]

/-- Password is tagged `required,min=6`. -/
def validatePassword (s : String) : List FieldError :=
  if s = "" then [⟨"Password", "required"⟩]
  else if s.length < 6 then [⟨"Password", "min"⟩]
  else []

/-- The function utils.ValidateStruct on a models.LoginRequest. -/
def ValidateLoginRequest (isEmail : String → Bool) (req : LoginRequest) : List FieldError :=
  validateEmail isEmail req.Email ++ validatePassword req.Password

/-- The method AuthHandler.Login.  `body` is the models.LoginRequest that
encoding/json decoded from the request (none when decoding fails).  Signing with an
HMAC method under a byte key returns no error, so the token_error answer of the
source is never reached. -/
def AuthHandler.Login (lib : JWTLib) (isEmail : String → Bool) (s : AuthService) (e : Env) (w : World) (body : Option LoginRequest) : Response × World :=
  match body with
  | none => (WriteError 400 "invalid_request" "Invalid JSON", w)
  | some req =>
    match ValidateLoginRequest isEmail req with
    | err :: errs => (WriteError 400 "validation_error" (FormatValidationError (err :: errs)), w)
    | [] =>
      match AuthService.CreateDefaultUser lib e w with
      | (user, w₁) =>
        if req.Email ≠ user.Email ∨ AuthService.VerifyPassword lib req.Password user.Password = false then
          (WriteError 401 "invalid_credentials" "Invalid email or password", w₁)
        else
          match s.GenerateToken lib e w₁ user.ID user.Role with
          | (token, w₂) => (WriteSuccess (.LoginResponse token user), w₂)

/-- The method HealthHandler.Check: one Ping of the store. -/
def HealthHandler.Check (e : Env) (w : World) : Response × World :=
  match roundTrip e w .Ping with
  | (some _, w₁) => (WriteError 503 "database_error" "Database connection failed", w₁)
  | (none, w₁) => (WriteJSON 200 (.stringMap [("status", "ok")]), w₁)

/-! ## Auxiliary notions used to state the properties -/

/-- The world after one store round trip that changed nothing: only the trace has grown. -/
def World.logged (w : World) (op : CollOp) : World := { w with trace := w.trace ++ [op] }

/-- No two documents of the collection answer to the same `_id` (the server's unique index). -/
def World.idsUnique (w : World) : Prop :=
  w.tasks.Pairwise (fun a b => ∀ id, hasID id a = true → hasID id b = false)

/-- The `owner_id` member of the stored record with the given `_id`, if there is one. -/
def ownerOf (w : World) (id : ObjectID) : Option Value :=
  (w.tasks.find? (hasID id)).bind (fun d => d.get "owner_id")

/-- The rejection of TaskHandler.Create's validation step. -/
def isValidationError (r : Response) : Prop :=
  ∃ msg, r = WriteError 400 "validation_error" msg

/-- The four conditions under which a task payload is invalid. -/
def invalidPayload (t : Task) : Prop :=
  t.Title = "" ∨ t.Title.length > 200 ∨ t.Description.length > 1000 ∨
    (t.Status ≠ "" ∧ t.Status ≠ "open" ∧ t.Status ≠ "in_progress" ∧ t.Status ≠ "done")

/-! ## Sample data -/

/-- A quiet environment: the clock advances one millisecond per reading, ids count
up from 1, no round trip fails. -/
def quietEnv : Env :=
  { clock := fun n => (n : Int) * 1000000, oids := fun n => n + 1, faults := fun _ => none,
    textMatch := fun _ _ => true, parseTime := fun _ => none }

/-- An environment in which every store round trip times out. -/
def timeoutEnv : Env :=
  { clock := fun n => (n : Int) * 1000000, oids := fun n => n + 1,
    faults := fun _ => some "context deadline exceeded",
    textMatch := fun _ _ => true, parseTime := fun _ => none }

/-- An environment whose clock stands still at 5 ms. -/
def frozenEnv : Env :=
  { clock := fun _ => 5000000, oids := fun n => n + 1, faults := fun _ => none,
    textMatch := fun _ _ => true, parseTime := fun _ => none }

/-- The empty collection. -/
def emptyWorld : World := { tasks := [], trace := [], reads := 0, minted := 0 }

/-- A plain user. -/
def alice : Claims := { UserID := 7, Role := "user", ExpiresAt := none, NotBefore := none, IssuedAt := none }

/-- Another plain user. -/
def bob : Claims := { UserID := 8, Role := "user", ExpiresAt := none, NotBefore := none, IssuedAt := none }

/-- An administrator. -/
def root : Claims := { UserID := 9, Role := "admin", ExpiresAt := none, NotBefore := none, IssuedAt := none }

/-- A payload with title "A", an empty status and a foreign owner id. -/
def payloadA : Task :=
  { ID := 0, Title := "A", Description := "", Status := "", OwnerID := 99, CreatedAt := 0,
    UpdatedAt := 0, DeletedAt := none }

/-- The hex form of the id 1. -/
def hexOne : String := "000000000000000000000001"

/-- The collection after alice has created `payloadA`. -/
def worldA : World := (TaskHandler.Create quietEnv emptyWorld (some alice) (some payloadA)).2

/-- The collection after alice has created `payloadA` and then deleted it. -/
def worldDeleted : World := (TaskHandler.Delete quietEnv worldA hexOne (some alice)).2

/-- The stored form of alice's task after she deleted it (the one record of `worldDeleted`). -/
def deletedRecord : Doc :=
  [("_id", .oid 1), ("title", .str "A"), ("description", .str ""), ("status", .str "open"),
   ("owner_id", .oid 7), ("created_at", .date 0), ("updated_at", .date 3), ("deleted_at", .date 2)]

/-- The `$set` document that is to reach the store for a field map submitted to
TaskHandler.Update: its members named title, description or status, in order, with
`updated_at` set to the next clock reading cut to milliseconds. -/
def sentSet (e : Env) (w : World) (updates : Doc) : Doc :=
  Doc.set
    (updates.filter (fun kv => decide (kv.1 = "title" ∨ kv.1 = "description" ∨ kv.1 = "status")))
    "updated_at" (.date (toDateTime (e.clock w.reads)))

/-- The task that TaskDAO.GetByID reads back from `worldA`. -/
def taskA : Task :=
  { ID := 1, Title := "A", Description := "", Status := "open", OwnerID := 7, CreatedAt := 0,
    UpdatedAt := 1000000, DeletedAt := none }

/-- A `$set` document that touches neither `_id` nor `owner_id`. -/
def keepsIdentity (set : Doc) : Prop := ∀ kv ∈ set, kv.1 ≠ "_id" ∧ kv.1 ≠ "owner_id"

/-- An environment in which only the fourth store round trip (index 3) times out. -/
def lateFaultEnv : Env :=
  { clock := fun n => (n : Int) * 1000000, oids := fun n => n + 1,
    faults := fun n => if n = 3 then some "context deadline exceeded" else none,
    textMatch := fun _ _ => true, parseTime := fun _ => none }

/-- The expiry, in whole seconds, that GenerateToken writes when called in world `w`. -/
def AuthService.expiresAt (s : AuthService) (e : Env) (w : World) : Int :=
  NewNumericDate (e.clock w.reads + wrapInt64 (s.expiryHours * Hour))

/-- The claims of the token that GenerateToken issues when called in world `w`. -/
def AuthService.issuedClaims (s : AuthService) (e : Env) (w : World) (userID : ObjectID) (role : String) : Claims :=
  s.claimsAt (e.clock w.reads) (e.clock (w.reads + 1)) userID role

/-- The token that GenerateToken issues when called in world `w`, in parsed form:
what a faithful parser yields for it. -/
def AuthService.issuedToken (lib : JWTLib) (s : AuthService) (e : Env) (w : World) (userID : ObjectID) (role : String) : ParsedToken :=
  { alg := "HS256",
    claims := s.issuedClaims e w userID role,
    signingString := lib.signingString (s.issuedClaims e w userID role),
    signature := hmac lib.sha256 64 (utf8Bytes s.jwtSecret)
      (utf8Bytes (lib.signingString (s.issuedClaims e w userID role))) }

/-- The claims of the sample token: user 7 with role "user", expiring at second 3600. -/
def sampleClaims : Claims :=
  { UserID := 7, Role := "user", ExpiresAt := some 3600, NotBefore := none, IssuedAt := some 0 }

/-- A stand-in for the libraries, enough to run the token code on the sample token:
the digests return their input, the signing string of every token is
"header.claims", a signature is written out byte by byte as characters, and the
parser reads a token that starts with "header.claims." back into the sample claims
and the signature bytes that follow. -/
def sampleLib : JWTLib :=
  { sha256 := fun bs => bs, sha384 := fun bs => bs, sha512 := fun bs => bs,
    signingString := fun _ => "header.claims",
    encodeSegment := fun sig => String.mk (sig.map Char.ofNat),
    parse := fun s =>
      if s.data.take 14 = "header.claims.".data then
        some { alg := "HS256", claims := sampleClaims, signingString := "header.claims",
               signature := (s.data.drop 14).map Char.toNat }
      else none }

/-- The sample token service: secret "k", tokens valid for one hour. -/
def sampleAuth : AuthService := { jwtSecret := "k", expiryHours := 1 }

/-- An environment whose clock reads 0.5 s when the sample token is issued and
3600.2 s from the third reading on. -/
def tokenEnv : Env :=
  { clock := fun n => if n = 0 then 500000000 else if n = 1 then 500000001 else 3600200000000,
    oids := fun n => n + 1, faults := fun _ => none, textMatch := fun _ _ => true,
    parseTime := fun _ => none }

/-- An error answer: a status from 400 up with a utils.ErrorResponse as body. -/
def Response.isError (r : Response) : Prop :=
  400 ≤ r.status ∧ ∃ err msg, r.body = some (.ErrorResponse err msg)

/-- A success answer in the envelope: status 200 with a utils.SuccessResponse around
the payload. -/
def Response.wraps (r : Response) (p : Payload) : Prop :=
  r.status = 200 ∧ r.body = some (.SuccessResponse p)

/-- The credentials of the built-in admin account. -/
def adminLogin : LoginRequest := { Email := "admin@example.com", Password := "admin123" }

/-- The constraints that the validate tags of models.Task put on title, description
and status, read on a stored document: a title of 1 to 200 characters, a description
of at most 1000, a status among the three constants. -/
def validStored (d : Doc) : Prop :=
  (∃ s, d.get "title" = some (.str s) ∧ 1 ≤ s.length ∧ s.length ≤ 200)
  ∧ (∃ s, d.get "description" = some (.str s) ∧ s.length ≤ 1000)
  ∧ (d.get "status" = some (.str "open") ∨ d.get "status" = some (.str "in_progress")
      ∨ d.get "status" = some (.str "done"))

/-- The data-model invariant: every stored record without a deleted timestamp meets
the constraints. -/
def World.dataModelInvariant (w : World) : Prop :=
  ∀ d ∈ w.tasks, notDeleted d = true → validStored d

/-- The payload of `payloadA` with a deleted timestamp of 5 ms in the body. -/
def payloadDeleted : Task := { payloadA with DeletedAt := some 5000000 }

/-! # Properties -/

/-! ## Store round trips of the reads -/

theorem FindOne_world (e : Env) (w : World) (id : ObjectID) :
    (Collection.FindOne e w id).2 = w.logged (.FindOne id) := by
  unfold Collection.FindOne roundTrip World.logged
  dsimp only
  split
  · rfl
  · split <;> rfl

theorem GetByID_world (e : Env) (w : World) (id : ObjectID) :
    (TaskDAO.GetByID e w id).2 = w.logged (.FindOne id) := by
  have h := FindOne_world e w id
  unfold TaskDAO.GetByID
  split
  · next err w₁ heq => rw [heq] at h; exact h
  · next d w₁ heq =>
    rw [heq] at h
    split <;> exact h

/-! ## C1: the ownership check of Update and Delete -/

/-- C1. When the handler's lookup of a well-formed id finds the live task `t`, Update
and Delete each answer 403 exactly when the caller is neither the owner of `t` nor an
admin; and an answer of 403 leaves behind the world in which only that one FindOne
was issued: no UpdateOne reached the store and the collection is as it was. -/
theorem C1_forbidden_iff_not_owner_nor_admin (e : Env) (w : World) (idStr : String)
    (id : ObjectID) (c : Claims) (t : Task) (body : Option Doc)
    (hid : ObjectIDFromHex idStr = some id)
    (hget : (TaskDAO.GetByID e w id).1 = .ok t) :
    ((TaskHandler.Update e w idStr (some c) body).1.status = 403 ↔
        (c.UserID ≠ t.OwnerID ∧ c.Role ≠ "admin"))
    ∧ ((TaskHandler.Delete e w idStr (some c)).1.status = 403 ↔
        (c.UserID ≠ t.OwnerID ∧ c.Role ≠ "admin"))
    ∧ ((TaskHandler.Update e w idStr (some c) body).1.status = 403 →
        (TaskHandler.Update e w idStr (some c) body).2 = w.logged (.FindOne id))
    ∧ ((TaskHandler.Delete e w idStr (some c)).1.status = 403 →
        (TaskHandler.Delete e w idStr (some c)).2 = w.logged (.FindOne id)) := by
  have hw := GetByID_world e w id
  rcases hg : TaskDAO.GetByID e w id with ⟨r, w₁⟩
  rw [hg] at hget hw
  simp only at hget hw
  subst hget
  subst hw
  have hP : (t.OwnerID ≠ c.UserID ∧ c.Role ≠ RoleAdmin) ↔ (c.UserID ≠ t.OwnerID ∧ c.Role ≠ "admin") :=
    ⟨fun h => ⟨fun h' => h.1 h'.symm, h.2⟩, fun h => ⟨fun h' => h.1 h'.symm, h.2⟩⟩
  simp only [TaskHandler.Update, TaskHandler.Delete, hid, hg]
  by_cases hc : t.OwnerID ≠ c.UserID ∧ c.Role ≠ RoleAdmin
  · simp only [if_pos hc]
    simp [WriteError, WriteJSON, hP.mp hc]
  · simp only [if_neg hc]
    have hn : ¬ (c.UserID ≠ t.OwnerID ∧ c.Role ≠ "admin") := fun h => hc (hP.mpr h)
    refine ⟨⟨fun h => ?_, fun h => absurd h hn⟩, ⟨fun h => ?_, fun h => absurd h hn⟩,
      fun h => ?_, fun h => ?_⟩
    all_goals
      exfalso
      revert h
      repeat' split
      all_goals simp [WriteError, WriteJSON, WriteSuccess]

/-- C1 at a concrete input: bob (not the owner, not an admin) patches and deletes the
task alice created; alice's own requests are not answered 403. -/
theorem C1_forbidden_witness :
    ((TaskHandler.Update quietEnv worldA hexOne (some bob) (some [("status", .str "done")])).1.status = 403 ↔
        (bob.UserID ≠ 7 ∧ bob.Role ≠ "admin"))
    ∧ ((TaskHandler.Delete quietEnv worldA hexOne (some bob)).1.status = 403 ↔
        (bob.UserID ≠ 7 ∧ bob.Role ≠ "admin"))
    ∧ ((TaskHandler.Update quietEnv worldA hexOne (some bob) (some [("status", .str "done")])).1.status = 403 →
        (TaskHandler.Update quietEnv worldA hexOne (some bob) (some [("status", .str "done")])).2
          = worldA.logged (.FindOne 1))
    ∧ ((TaskHandler.Delete quietEnv worldA hexOne (some bob)).1.status = 403 →
        (TaskHandler.Delete quietEnv worldA hexOne (some bob)).2 = worldA.logged (.FindOne 1)) :=
  C1_forbidden_iff_not_owner_nor_admin quietEnv worldA hexOne 1 bob
    { ID := 1, Title := "A", Description := "", Status := "open", OwnerID := 7, CreatedAt := 0,
      UpdatedAt := 1000000, DeletedAt := none }
    (some [("status", .str "done")]) (by decide) (by rfl)

/-! ## What Find selects and what decoding returns -/

theorem mem_findDocs (e : Env) (tasks : List Doc) (f : TaskFilter) (d : Doc)
    (h : d ∈ findDocs e tasks f) : d ∈ tasks ∧ listQuery e f d = true := by
  unfold findDocs at h
  have h₁ : d ∈ (tasks.filter (listQuery e f)).insertionSort newerFirst := by
    dsimp only at h
    split at h
    · have h₂ := List.mem_of_mem_take h
      split at h₂
      · exact List.mem_of_mem_drop h₂
      · exact h₂
    · split at h
      · exact List.mem_of_mem_drop h
      · exact h
  have h₂ : d ∈ tasks.filter (listQuery e f) :=
    (List.perm_insertionSort newerFirst _).mem_iff.mp h₁
  exact List.mem_filter.mp h₂

theorem decodeAll_mem (e : Env) (ds : List Doc) (ts : List Task) (t : Task)
    (h : decodeAll e ds = some ts) (ht : t ∈ ts) : ∃ d ∈ ds, decodeTask e d = some t := by
  induction ds generalizing ts with
  | nil =>
    simp [decodeAll] at h
    subst h
    simp at ht
  | cons d ds ih =>
    unfold decodeAll at h
    split at h
    · next t' ts' h₁ h₂ =>
      simp at h
      subst h
      rcases List.mem_cons.mp ht with rfl | hmem
      · exact ⟨d, List.mem_cons_self _ _, h₁⟩
      · obtain ⟨d', hd', hdec⟩ := ih ts' h₂ hmem
        exact ⟨d', List.mem_cons_of_mem _ hd', hdec⟩
    · simp at h

theorem decodeTask_owner (e : Env) (d : Doc) (t : Task) (h : decodeTask e d = some t) :
    decodeObjectID (d.get "owner_id") = some t.OwnerID := by
  unfold decodeTask at h
  split at h
  · next h₁ h₂ h₃ h₄ h₅ h₆ h₇ h₈ =>
    simp at h
    subst h
    exact h₅
  · simp at h

theorem decodeTask_deleted (e : Env) (d : Doc) (t : Task) (h : decodeTask e d = some t) :
    decodeTimePtr e (d.get "deleted_at") = some t.DeletedAt := by
  unfold decodeTask at h
  split at h
  · next h₁ h₂ h₃ h₄ h₅ h₆ h₇ h₈ =>
    simp at h
    subst h
    exact h₈
  · simp at h

theorem owner_of_selected (e : Env) (f : TaskFilter) (o : ObjectID) (d : Doc) (t : Task)
    (hf : f.OwnerID = some o) (hq : listQuery e f d = true) (hd : decodeTask e d = some t) :
    t.OwnerID = o := by
  have hdec := decodeTask_owner e d t hd
  unfold listQuery at hq
  rw [hf] at hq
  simp only [Bool.and_eq_true] at hq
  have hm := hq.1.1.2
  cases hg : d.get "owner_id" with
  | none => rw [hg] at hm; simp at hm
  | some v =>
    rw [hg] at hm hdec
    cases v with
    | oid o' =>
      simp [Value.matchesOid] at hm
      simp [decodeObjectID] at hdec
      rw [← hdec, hm]
    | arr items => simp [decodeObjectID] at hdec
    | null => simp [Value.matchesOid] at hm
    | bool b => simp [Value.matchesOid] at hm
    | num n => simp [Value.matchesOid] at hm
    | str s => simp [Value.matchesOid] at hm
    | date ms => simp [Value.matchesOid] at hm
    | obj fs => simp [Value.matchesOid] at hm

theorem List_world (e : Env) (w : World) (f : TaskFilter) :
    (TaskDAO.List e w f).2 = w.logged (.Find f) := by
  unfold TaskDAO.List Collection.Find roundTrip World.logged
  dsimp only
  split
  · rfl
  · split <;> rfl

theorem List_ok (e : Env) (w : World) (f : TaskFilter) (ts : List Task)
    (h : (TaskDAO.List e w f).1 = .ok ts) : decodeAll e (findDocs e w.tasks f) = some ts := by
  unfold TaskDAO.List Collection.Find roundTrip at h
  dsimp only at h
  split at h
  · simp at h
  · split at h
    · simp at h
    · next ts' hd =>
      simp at h
      rw [hd, h]

theorem applyLimit_OwnerID (f : TaskFilter) (s : String) : (applyLimit f s).OwnerID = f.OwnerID := by
  unfold applyLimit
  repeat' split
  all_goals rfl

theorem applyOffset_OwnerID (f : TaskFilter) (s : String) : (applyOffset f s).OwnerID = f.OwnerID := by
  unfold applyOffset
  repeat' split
  all_goals rfl

theorem applyStatus_OwnerID (f : TaskFilter) (s : String) : (applyStatus f s).OwnerID = f.OwnerID := by
  unfold applyStatus
  split <;> rfl

theorem applySearch_OwnerID (f : TaskFilter) (s : String) : (applySearch f s).OwnerID = f.OwnerID := by
  unfold applySearch
  split <;> rfl

theorem applyOwner_OwnerID (f : TaskFilter) (s : String) (h : f.OwnerID = none) :
    (applyOwner f s).OwnerID = ObjectIDFromHex s := by
  unfold applyOwner
  by_cases hs : s = ""
  · subst hs
    simp [h, ObjectIDFromHex]
  · simp only [ne_eq, hs, not_false_eq_true, if_true]
    cases hx : ObjectIDFromHex s with
    | none => exact h
    | some o => rfl

theorem applyScope_admin (f : TaskFilter) (user : Claims) (h : user.Role = "admin") :
    applyScope f user = f := by
  unfold applyScope
  simp [RoleAdmin, h]

/-! ## C2: the owner scope of List -/

/-- C2. TaskHandler.List issues exactly one Find, with the filter built from the
caller and the query string.  For a caller whose role is not "admin" that filter's
OwnerID is the caller's id whatever the `owner` parameter holds, and every task of a
successful answer is owned by the caller; for an admin the filter's OwnerID is the
`owner` parameter when it is a well-formed id and absent otherwise. -/
theorem C2_list_owner_scope (e : Env) (w : World) (user : Claims) (query : List (String × String)) :
    (TaskHandler.List e w (some user) query).2 = w.logged (.Find (buildFilter user query))
    ∧ (user.Role ≠ "admin" →
        (buildFilter user query).OwnerID = some user.UserID
        ∧ ∀ ts, (TaskHandler.List e w (some user) query).1 = WriteSuccess (.tasks ts) →
            ∀ t ∈ ts, t.OwnerID = user.UserID)
    ∧ (user.Role = "admin" →
        (buildFilter user query).OwnerID = ObjectIDFromHex (queryGet query "owner")) := by
  refine ⟨?_, ?_, ?_⟩
  · have hw := List_world e w (buildFilter user query)
    unfold TaskHandler.List
    dsimp only
    split
    · next err w₁ heq => rw [heq] at hw; exact hw
    · next ts w₁ heq => rw [heq] at hw; exact hw
  · intro hrole
    have hown : (buildFilter user query).OwnerID = some user.UserID := by
      unfold buildFilter applyScope
      simp [RoleAdmin, hrole]
    refine ⟨hown, ?_⟩
    intro ts hresp t ht
    have hok : (TaskDAO.List e w (buildFilter user query)).1 = .ok ts := by
      unfold TaskHandler.List at hresp
      dsimp only at hresp
      split at hresp
      · simp [WriteError, WriteSuccess, WriteJSON] at hresp
      · next ts' w₁ heq =>
        simp [WriteSuccess, WriteJSON] at hresp
        rw [heq, hresp]
    obtain ⟨d, hd, hdec⟩ := decodeAll_mem e _ ts t (List_ok e w _ ts hok) ht
    exact owner_of_selected e _ _ d t hown (mem_findDocs e _ _ d hd).2 hdec
  · intro hrole
    unfold buildFilter
    rw [applyScope_admin _ _ hrole, applySearch_OwnerID]
    apply applyOwner_OwnerID
    rw [applyStatus_OwnerID, applyOffset_OwnerID, applyLimit_OwnerID]

/-- C2 at a concrete input: bob lists with `owner` set to alice's id and the filter
is still scoped to bob; root lists with the same parameter and the filter holds
alice's id. -/
theorem C2_list_owner_witness :
    (buildFilter bob [("owner", "000000000000000000000007")]).OwnerID = some 8
    ∧ (buildFilter root [("owner", "000000000000000000000007")]).OwnerID = some 7 :=
  ⟨((C2_list_owner_scope quietEnv worldA bob [("owner", "000000000000000000000007")]).2.1
      (by decide)).1,
   ((C2_list_owner_scope quietEnv worldA root [("owner", "000000000000000000000007")]).2.2
      (by decide)).trans (by decide)⟩

/-! ## Writes that match nothing -/

theorem updateFirst_none (p : Doc → Bool) (f : Doc → Doc) (l : List Doc)
    (h : ∀ d ∈ l, p d = false) : updateFirst p f l = l := by
  induction l with
  | nil => rfl
  | cons d ds ih =>
    unfold updateFirst
    rw [h d (List.mem_cons_self _ _)]
    simp only [Bool.false_eq_true, if_false]
    rw [ih (fun x hx => h x (List.mem_cons_of_mem _ hx))]

theorem UpdateOne_tasks_of_none (e : Env) (w : World) (id : ObjectID) (set : Doc)
    (h : ∀ d ∈ w.tasks, liveWithID id d = false) :
    (Collection.UpdateOne e w id set).2.tasks = w.tasks := by
  unfold Collection.UpdateOne roundTrip
  dsimp only
  split
  · rfl
  · exact updateFirst_none _ _ _ h

theorem UpdateOne_result (e : Env) (w : World) (id : ObjectID) (set : Doc) :
    (Collection.UpdateOne e w id set).1 = (e.faults w.trace.length).map StoreErr.Fault := by
  unfold Collection.UpdateOne roundTrip
  dsimp only
  split
  · next msg h => rw [h]; rfl
  · next h => rw [h]; rfl

theorem GetByID_error_of_none (e : Env) (w : World) (id : ObjectID)
    (h : ∀ d ∈ w.tasks, liveWithID id d = false) :
    ∃ err, (TaskDAO.GetByID e w id).1 = .error err := by
  have hf : w.tasks.find? (liveWithID id) = none := by
    rw [List.find?_eq_none]
    intro d hd
    simp [h d hd]
  unfold TaskDAO.GetByID Collection.FindOne roundTrip
  dsimp only
  split
  · next err w₁ heq => exact ⟨err, rfl⟩
  · next d w₁ heq =>
    exfalso
    split at heq
    · simp at heq
    · rw [hf] at heq
      simp at heq

/-- Under unique ids, once the record with a given id carries a deleted timestamp no
document of the collection passes the filter `liveWithID`. -/
theorem no_live_of_deleted (w : World) (t : Doc) (id : ObjectID) (hu : w.idsUnique)
    (ht : t ∈ w.tasks) (hid : hasID id t = true) (hdel : notDeleted t = false) :
    ∀ d ∈ w.tasks, liveWithID id d = false := by
  intro d hd
  by_cases hdt : d = t
  · subst hdt
    simp [liveWithID, hdel]
  · have hsymm : Symmetric (fun a b : Doc => ∀ id, hasID id a = true → hasID id b = false) := by
      intro a b hab i hb
      cases ha : hasID i a with
      | false => rfl
      | true => have := hab i ha; rw [hb] at this; exact absurd this (by simp)
    have hr := List.Pairwise.forall hsymm hu ht hd (fun h => hdt h.symm)
    simp [liveWithID, hr id hid]

theorem Update_tasks_of_none (e : Env) (w : World) (id : ObjectID) (u : Doc)
    (h : ∀ d ∈ w.tasks, liveWithID id d = false) : (TaskDAO.Update e w id u).2.tasks = w.tasks := by
  unfold TaskDAO.Update timeNow
  exact UpdateOne_tasks_of_none e _ id _ h

theorem Delete_tasks_of_none (e : Env) (w : World) (id : ObjectID)
    (h : ∀ d ∈ w.tasks, liveWithID id d = false) : (TaskDAO.Delete e w id).2.tasks = w.tasks := by
  unfold TaskDAO.Delete timeNow
  exact UpdateOne_tasks_of_none e _ id _ h

theorem handlers_404_of_none (e : Env) (w : World) (id : ObjectID) (idStr : String)
    (hid : ObjectIDFromHex idStr = some id) (h : ∀ d ∈ w.tasks, liveWithID id d = false)
    (user : Claims) (body : Option Doc) :
    (TaskHandler.GetByID e w idStr).1.status = 404
    ∧ (TaskHandler.GetByID e w idStr).2 = w.logged (.FindOne id)
    ∧ (TaskHandler.Update e w idStr (some user) body).1.status = 404
    ∧ (TaskHandler.Update e w idStr (some user) body).2 = w.logged (.FindOne id)
    ∧ (TaskHandler.Delete e w idStr (some user)).1.status = 404
    ∧ (TaskHandler.Delete e w idStr (some user)).2 = w.logged (.FindOne id) := by
  obtain ⟨err, herr⟩ := GetByID_error_of_none e w id h
  have hw := GetByID_world e w id
  rcases hg : TaskDAO.GetByID e w id with ⟨r, w₁⟩
  rw [hg] at herr hw
  simp only at herr hw
  subst herr
  subst hw
  simp [TaskHandler.GetByID, TaskHandler.Update, TaskHandler.Delete, hid, hg, WriteError, WriteJSON]

theorem decodeTask_live (e : Env) (d : Doc) (t : Task) (hl : notDeleted d = true)
    (hd : decodeTask e d = some t) : t.DeletedAt = none := by
  have h := decodeTask_deleted e d t hd
  unfold notDeleted at hl
  cases hg : d.get "deleted_at" with
  | none =>
    rw [hg] at h
    simp [decodeTimePtr] at h
    exact h.symm
  | some v => rw [hg] at hl; simp at hl

theorem listQuery_live (e : Env) (f : TaskFilter) (d : Doc) (h : listQuery e f d = true) :
    notDeleted d = true := by
  unfold listQuery at h
  simp only [Bool.and_eq_true] at h
  exact h.1.1.1

/-! ## C3: a soft-deleted record is invisible and stays in the collection -/

/-- C3. In a collection with unique ids, let `t` be a stored record with id `id` that
carries a deleted timestamp.  Then TaskDAO.GetByID on `id` fails; for every filter
TaskDAO.List selects a set of documents that does not contain `t`, and no task it
returns carries a deleted timestamp; TaskDAO.Update (any field map) and
TaskDAO.Delete on `id` leave the collection as it was; for every caller, admins
included, the handlers GetByID, Update and Delete answer 404 having issued only the
one FindOne; and `t` is still in the collection after each of these operations. -/
theorem C3_soft_deleted_invisible (e : Env) (w : World) (t : Doc) (id : ObjectID)
    (hu : w.idsUnique) (ht : t ∈ w.tasks) (hid : hasID id t = true)
    (hdel : notDeleted t = false) :
    (∃ err, (TaskDAO.GetByID e w id).1 = .error err)
    ∧ (∀ f, t ∉ findDocs e w.tasks f
        ∧ ∀ ts, (TaskDAO.List e w f).1 = .ok ts →
            decodeAll e (findDocs e w.tasks f) = some ts ∧ ∀ task ∈ ts, task.DeletedAt = none)
    ∧ (∀ u, (TaskDAO.Update e w id u).2.tasks = w.tasks)
    ∧ (TaskDAO.Delete e w id).2.tasks = w.tasks
    ∧ (∀ idStr user body, ObjectIDFromHex idStr = some id →
        (TaskHandler.GetByID e w idStr).1.status = 404
        ∧ (TaskHandler.GetByID e w idStr).2 = w.logged (.FindOne id)
        ∧ (TaskHandler.Update e w idStr (some user) body).1.status = 404
        ∧ (TaskHandler.Update e w idStr (some user) body).2 = w.logged (.FindOne id)
        ∧ (TaskHandler.Delete e w idStr (some user)).1.status = 404
        ∧ (TaskHandler.Delete e w idStr (some user)).2 = w.logged (.FindOne id))
    ∧ (t ∈ (TaskDAO.GetByID e w id).2.tasks ∧ (∀ f, t ∈ (TaskDAO.List e w f).2.tasks)
        ∧ (∀ u, t ∈ (TaskDAO.Update e w id u).2.tasks) ∧ t ∈ (TaskDAO.Delete e w id).2.tasks) := by
  have hnone := no_live_of_deleted w t id hu ht hid hdel
  refine ⟨GetByID_error_of_none e w id hnone, ?_, fun u => Update_tasks_of_none e w id u hnone,
    Delete_tasks_of_none e w id hnone,
    fun idStr user body h => handlers_404_of_none e w id idStr h hnone user body, ?_⟩
  · intro f
    refine ⟨fun hmem => ?_, fun ts hok => ⟨List_ok e w f ts hok, fun task htask => ?_⟩⟩
    · have hq := listQuery_live e f t (mem_findDocs e _ _ t hmem).2
      rw [hdel] at hq
      exact absurd hq (by simp)
    · obtain ⟨d, hd, hdec⟩ := decodeAll_mem e _ ts task (List_ok e w f ts hok) htask
      exact decodeTask_live e d task (listQuery_live e f d (mem_findDocs e _ _ d hd).2) hdec
  · refine ⟨?_, fun f => ?_, fun u => ?_, ?_⟩
    · rw [GetByID_world]; exact ht
    · rw [List_world]; exact ht
    · rw [Update_tasks_of_none e w id u hnone]; exact ht
    · rw [Delete_tasks_of_none e w id hnone]; exact ht

/-- C3 at a concrete input: the record alice created and then deleted.  The lookup
fails, an admin's DELETE and PATCH are answered 404, and the record is still stored. -/
theorem C3_soft_deleted_witness :
    (∃ err, (TaskDAO.GetByID quietEnv worldDeleted 1).1 = .error err)
    ∧ (TaskHandler.Update quietEnv worldDeleted hexOne (some root) (some [("title", .str "B")])).1.status = 404
    ∧ (TaskHandler.Delete quietEnv worldDeleted hexOne (some root)).1.status = 404
    ∧ deletedRecord ∈ (TaskDAO.Delete quietEnv worldDeleted 1).2.tasks :=
  have h := C3_soft_deleted_invisible quietEnv worldDeleted deletedRecord 1
    (List.pairwise_singleton _ _) (List.mem_singleton.mpr rfl) (by decide) (by decide)
  ⟨h.1, (h.2.2.2.2.1 hexOne root (some [("title", .str "B")]) (by decide)).2.2.1,
    (h.2.2.2.2.1 hexOne root (some [("title", .str "B")]) (by decide)).2.2.2.2.1,
    h.2.2.2.2.2.2.2.2⟩

/-! ## Members of a document after `Doc.set` and after the handler's key filter -/

theorem Doc.get_set (d : Doc) (k : String) (v : Value) (k' : String) :
    Doc.get (Doc.set d k v) k' = if k' = k then some v else Doc.get d k' := by
  induction d with
  | nil =>
    by_cases h : k' = k
    · simp [Doc.set, Doc.get, List.lookup, h]
    · have h' : (k' == k) = false := by simpa using h
      simp [Doc.set, Doc.get, List.lookup, h, h']
  | cons kv rest ih =>
    obtain ⟨k₀, v₀⟩ := kv
    unfold Doc.get at ih ⊢
    unfold Doc.set
    by_cases h₀ : k₀ = k
    · subst h₀
      by_cases h : k' = k₀
      · simp [List.lookup, h]
      · have h' : (k' == k₀) = false := by simpa using h
        simp [List.lookup, h, h']
    · simp only [h₀, if_false]
      by_cases h : k' = k₀
      · subst h
        simp [List.lookup, h₀]
      · have h' : (k' == k₀) = false := by simpa using h
        simp only [List.lookup, h']
        exact ih

theorem Doc.get_filter (p : String → Bool) (d : Doc) (k : String) :
    Doc.get (d.filter (fun kv => p kv.1)) k = if p k = true then Doc.get d k else none := by
  induction d with
  | nil => simp [Doc.get, List.lookup]
  | cons kv rest ih =>
    obtain ⟨k₀, v₀⟩ := kv
    unfold Doc.get at ih ⊢
    by_cases hk : k = k₀
    · subst hk
      by_cases hp : p k = true
      · simp [List.filter, hp, List.lookup]
      · have hp' : p k = false := by simpa using hp
        simp only [List.filter, hp', List.lookup, beq_self_eq_true]
        rw [ih]
        simp [hp']
    · have h' : (k == k₀) = false := by simpa using hk
      by_cases hp : p k₀ = true
      · simp only [List.filter, hp, List.lookup, h']
        exact ih
      · have hp' : p k₀ = false := by simpa using hp
        simp only [List.filter, hp', List.lookup, h']
        exact ih

/-- The table allowedFields admits exactly the three names title, description and status. -/
theorem allowedFields_iff (k : String) :
    allowedFields k = true ↔ (k = "title" ∨ k = "description" ∨ k = "status") := by
  unfold allowedFields
  simp [Bool.or_eq_true, or_assoc]

theorem filter_allowedFields (updates : Doc) :
    updates.filter (fun kv => allowedFields kv.1)
      = updates.filter (fun kv => decide (kv.1 = "title" ∨ kv.1 = "description" ∨ kv.1 = "status")) := by
  apply List.filter_congr
  intro kv _
  by_cases h : kv.1 = "title" ∨ kv.1 = "description" ∨ kv.1 = "status"
  · rw [(allowedFields_iff kv.1).mpr h]
    simp [h]
  · have hf : allowedFields kv.1 = false := by
      cases ha : allowedFields kv.1 with
      | false => rfl
      | true => exact absurd ((allowedFields_iff kv.1).mp ha) h
    rw [hf]
    simp [h]

theorem sentSet_table (e : Env) (w : World) (updates : Doc) :
    Doc.set (updates.filter (fun kv => allowedFields kv.1)) "updated_at"
        (.date (toDateTime (e.clock w.reads))) = sentSet e w updates := by
  unfold sentSet
  rw [filter_allowedFields]

theorem sentSet_get (e : Env) (w : World) (updates : Doc) (k : String) :
    (sentSet e w updates).get k
      = if k = "updated_at" then some (.date (toDateTime (e.clock w.reads)))
        else if k = "title" ∨ k = "description" ∨ k = "status" then updates.get k
        else none := by
  unfold sentSet
  rw [Doc.get_set, Doc.get_filter (fun k => decide (k = "title" ∨ k = "description" ∨ k = "status"))]
  by_cases hk : k = "updated_at"
  · simp [hk]
  · by_cases ha : k = "title" ∨ k = "description" ∨ k = "status"
    · simp [hk, ha]
    · simp [hk, ha]

theorem sentSet_keys (e : Env) (w : World) (updates : Doc) (k : String) :
    ((sentSet e w updates).get k).isSome = true ↔
      ((updates.get k).isSome = true ∧ (k = "title" ∨ k = "description" ∨ k = "status"))
        ∨ k = "updated_at" := by
  rw [sentSet_get]
  by_cases hk : k = "updated_at"
  · simp [hk]
  · by_cases ha : k = "title" ∨ k = "description" ∨ k = "status"
    · simp [hk, ha]
    · simp [hk, ha]

theorem Update_trace (e : Env) (w : World) (id : ObjectID) (u : Doc) :
    (TaskDAO.Update e w id u).2.trace
      = w.trace ++ [.UpdateOne id (Doc.set u "updated_at" (.date (toDateTime (e.clock w.reads))))] := by
  unfold TaskDAO.Update Collection.UpdateOne roundTrip timeNow
  dsimp only
  split <;> rfl

theorem Update_result (e : Env) (w : World) (id : ObjectID) (u : Doc) :
    (TaskDAO.Update e w id u).1 = (e.faults w.trace.length).map StoreErr.Fault := by
  unfold TaskDAO.Update timeNow
  exact UpdateOne_result e _ id _

theorem Update_tasks (e : Env) (w : World) (id : ObjectID) (u : Doc) :
    (TaskDAO.Update e w id u).2.tasks
      = if (e.faults w.trace.length).isSome then w.tasks
        else updateFirst (liveWithID id)
          (fun d => d.applySet (Doc.set u "updated_at" (.date (toDateTime (e.clock w.reads))))) w.tasks := by
  unfold TaskDAO.Update Collection.UpdateOne roundTrip timeNow
  dsimp only
  split
  · next msg h =>
    have h' : e.faults w.trace.length = some msg := h
    simp [h']
  · next h =>
    have h' : e.faults w.trace.length = none := h
    simp [h']

/-! ## C4: the field map of Update -/

/-- TaskHandler.Update on a task the lookup finds and the caller may change, told
through the table allowedFields as the handler consults it. -/
theorem Update_fields_by_table (e : Env) (w : World) (idStr : String) (id : ObjectID)
    (c : Claims) (t : Task) (updates : Doc)
    (hid : ObjectIDFromHex idStr = some id)
    (hget : (TaskDAO.GetByID e w id).1 = .ok t)
    (hauth : c.UserID = t.OwnerID ∨ c.Role = "admin") :
    ((∀ kv ∈ updates, allowedFields kv.1 = false) →
        (TaskHandler.Update e w idStr (some c) (some updates)).1
            = WriteError 400 "no_updates" "No valid fields to update"
        ∧ (TaskHandler.Update e w idStr (some c) (some updates)).2 = w.logged (.FindOne id))
    ∧ ((∃ kv ∈ updates, allowedFields kv.1 = true) →
        (TaskHandler.Update e w idStr (some c) (some updates)).2.trace
            = w.trace ++ [.FindOne id, .UpdateOne id (Doc.set (updates.filter (fun kv => allowedFields kv.1)) "updated_at"
                (.date (toDateTime (e.clock w.reads))))]
                ++ (if (e.faults (w.trace.length + 1)).isSome then [] else [.FindOne id])
        ∧ (e.faults (w.trace.length + 1) = none →
            (TaskHandler.Update e w idStr (some c) (some updates)).1.status = 200
            ∧ (TaskHandler.Update e w idStr (some c) (some updates)).2.tasks
                = updateFirst (liveWithID id) (fun d => d.applySet (Doc.set (updates.filter (fun kv => allowedFields kv.1)) "updated_at"
                (.date (toDateTime (e.clock w.reads))))) w.tasks)
        ∧ (e.faults (w.trace.length + 1) ≠ none →
            (TaskHandler.Update e w idStr (some c) (some updates)).1.status = 500
            ∧ (TaskHandler.Update e w idStr (some c) (some updates)).2.tasks = w.tasks))
    ∧ TaskHandler.Update e w idStr (some c) (some updates)
        = TaskHandler.Update e w idStr (some c) (some (updates.filter (fun kv => allowedFields kv.1))) := by
  have hw := GetByID_world e w id
  rcases hg : TaskDAO.GetByID e w id with ⟨r, w₁⟩
  rw [hg] at hget hw
  simp only at hget hw
  subst hget
  subst hw
  have hc : ¬ (t.OwnerID ≠ c.UserID ∧ c.Role ≠ RoleAdmin) := by
    rintro ⟨h₁, h₂⟩
    rcases hauth with h | h
    · exact h₁ h.symm
    · exact h₂ h
  refine ⟨?_, ?_, ?_⟩
  · intro hnone
    have hf : updates.filter (fun kv => allowedFields kv.1) = [] := by
      rw [List.filter_eq_nil_iff]
      intro kv hkv
      simp [hnone kv hkv]
    simp [TaskHandler.Update, hid, hg, hc, hf]
  · rintro ⟨kv, hkv, hallowed⟩
    have hf : (updates.filter (fun kv => allowedFields kv.1)).length ≠ 0 := by
      intro h0
      have hmem : kv ∈ updates.filter (fun kv => allowedFields kv.1) :=
        List.mem_filter.mpr ⟨hkv, hallowed⟩
      rw [List.length_eq_zero] at h0
      rw [h0] at hmem
      simp at hmem
    have htr := Update_trace e (w.logged (.FindOne id)) id (updates.filter (fun kv => allowedFields kv.1))
    have hres := Update_result e (w.logged (.FindOne id)) id (updates.filter (fun kv => allowedFields kv.1))
    have hts := Update_tasks e (w.logged (.FindOne id)) id (updates.filter (fun kv => allowedFields kv.1))
    have hlen : (w.logged (.FindOne id)).trace.length = w.trace.length + 1 := by
      simp [World.logged]
    rw [hlen] at hres hts
    simp only [TaskHandler.Update, hid, hg, if_neg hc, if_neg hf]
    rcases hu : TaskDAO.Update e (w.logged (.FindOne id)) id (updates.filter (fun kv => allowedFields kv.1))
      with ⟨r, w₂⟩
    rw [hu] at htr hres hts
    simp only at htr hres hts
    cases hfault : e.faults (w.trace.length + 1) with
    | some msg =>
      rw [hfault] at hres hts
      simp only [Option.map_some', Option.isSome_some, if_true] at hres hts
      subst hres
      simp only [Option.isSome_some, if_true, List.append_nil]
      refine ⟨?_, fun h => absurd h (by simp), fun _ => ⟨rfl, hts⟩⟩
      rw [htr]
      simp [World.logged]
    | none =>
      rw [hfault] at hres hts
      simp only [Option.map_none', Option.isSome_none, Bool.false_eq_true, if_false] at hres hts
      subst hres
      simp only [Option.isSome_none, Bool.false_eq_true, if_false]
      have hw₃ := GetByID_world e w₂ id
      rcases hg₂ : TaskDAO.GetByID e w₂ id with ⟨r₂, w₃⟩
      rw [hg₂] at hw₃
      simp only at hw₃
      subst hw₃
      have key : (w₂.logged (.FindOne id)).trace
            = w.trace ++ [.FindOne id, .UpdateOne id (Doc.set (updates.filter (fun kv => allowedFields kv.1)) "updated_at"
                (.date (toDateTime (e.clock w.reads))))] ++ [.FindOne id]
          ∧ (w₂.logged (.FindOne id)).tasks
            = updateFirst (liveWithID id) (fun d => d.applySet (Doc.set (updates.filter (fun kv => allowedFields kv.1)) "updated_at"
                (.date (toDateTime (e.clock w.reads))))) w.tasks := by
        constructor
        · simp only [World.logged, htr]
          simp
        · simp only [World.logged, hts]
      cases r₂ with
      | error err => exact ⟨key.1, fun _ => ⟨rfl, key.2⟩, fun h => absurd rfl h⟩
      | ok t₂ => exact ⟨key.1, fun _ => ⟨rfl, key.2⟩, fun h => absurd rfl h⟩
  · simp only [TaskHandler.Update, hid, hg, if_neg hc, List.filter_filter, Bool.and_self]

/-- C4. An authorised caller patches a live task with a field map.  If none of its
keys is title, description or status, the answer is 400 no_updates and only the
lookup reached the store.  Otherwise exactly one UpdateOne follows the lookup; its
`$set` document holds precisely the submitted keys among title, description and
status, each with the value submitted, plus updated_at, so that owner_id, id, _id,
deleted_at and created_at are never in it; and it is applied to the record unless
the round trip fails (then the answer is 500).  In both cases the answer and the
resulting world are those of the same request with every key other than the three
removed: the other keys are dropped without error. -/
theorem C4_update_field_filter (e : Env) (w : World) (idStr : String) (id : ObjectID)
    (c : Claims) (t : Task) (updates : Doc)
    (hid : ObjectIDFromHex idStr = some id)
    (hget : (TaskDAO.GetByID e w id).1 = .ok t)
    (hauth : c.UserID = t.OwnerID ∨ c.Role = "admin") :
    ((∀ kv ∈ updates, kv.1 ≠ "title" ∧ kv.1 ≠ "description" ∧ kv.1 ≠ "status") →
        (TaskHandler.Update e w idStr (some c) (some updates)).1
            = WriteError 400 "no_updates" "No valid fields to update"
        ∧ (TaskHandler.Update e w idStr (some c) (some updates)).2 = w.logged (.FindOne id))
    ∧ ((∃ kv ∈ updates, kv.1 = "title" ∨ kv.1 = "description" ∨ kv.1 = "status") →
        (TaskHandler.Update e w idStr (some c) (some updates)).2.trace
            = w.trace ++ [.FindOne id, .UpdateOne id (sentSet e w updates)]
                ++ (if (e.faults (w.trace.length + 1)).isSome then [] else [.FindOne id])
        ∧ (e.faults (w.trace.length + 1) = none →
            (TaskHandler.Update e w idStr (some c) (some updates)).1.status = 200
            ∧ (TaskHandler.Update e w idStr (some c) (some updates)).2.tasks
                = updateFirst (liveWithID id) (fun d => d.applySet (sentSet e w updates)) w.tasks)
        ∧ (e.faults (w.trace.length + 1) ≠ none →
            (TaskHandler.Update e w idStr (some c) (some updates)).1.status = 500
            ∧ (TaskHandler.Update e w idStr (some c) (some updates)).2.tasks = w.tasks))
    ∧ (∀ k, ((sentSet e w updates).get k).isSome = true ↔
        ((updates.get k).isSome = true ∧ (k = "title" ∨ k = "description" ∨ k = "status"))
          ∨ k = "updated_at")
    ∧ ((sentSet e w updates).get "title" = updates.get "title"
        ∧ (sentSet e w updates).get "description" = updates.get "description"
        ∧ (sentSet e w updates).get "status" = updates.get "status"
        ∧ (sentSet e w updates).get "updated_at" = some (.date (toDateTime (e.clock w.reads))))
    ∧ ((sentSet e w updates).get "owner_id" = none ∧ (sentSet e w updates).get "id" = none
        ∧ (sentSet e w updates).get "_id" = none ∧ (sentSet e w updates).get "deleted_at" = none
        ∧ (sentSet e w updates).get "created_at" = none)
    ∧ TaskHandler.Update e w idStr (some c) (some updates)
        = TaskHandler.Update e w idStr (some c)
            (some (updates.filter
              (fun kv => decide (kv.1 = "title" ∨ kv.1 = "description" ∨ kv.1 = "status")))) := by
  have h := Update_fields_by_table e w idStr id c t updates hid hget hauth
  rw [sentSet_table, filter_allowedFields] at h
  refine ⟨fun hnone => h.1 (fun kv hkv => ?_), fun hsome => h.2.1 ?_, sentSet_keys e w updates,
    ?_, ?_, h.2.2⟩
  · cases ha : allowedFields kv.1 with
    | false => rfl
    | true =>
      have hk := (allowedFields_iff kv.1).mp ha
      have hn := hnone kv hkv
      rcases hk with hk | hk | hk
      · exact absurd hk hn.1
      · exact absurd hk hn.2.1
      · exact absurd hk hn.2.2
  · obtain ⟨kv, hkv, hk⟩ := hsome
    exact ⟨kv, hkv, (allowedFields_iff kv.1).mpr hk⟩
  · refine ⟨?_, ?_, ?_, ?_⟩ <;> (rw [sentSet_get]; simp)
  · refine ⟨?_, ?_, ?_, ?_, ?_⟩ <;> (rw [sentSet_get]; simp)

/-- C4 at a concrete input: alice patches her own task.  A map holding only
owner_id, id, deleted_at and created_at is answered 400 no_updates and nothing is
written.  A map holding title, description and status next to those four keys is
answered 200, one UpdateOne follows the lookup, and the stored record has the new
title, description and status while its owner, creation time and absent deleted
timestamp are as they were. -/
theorem C4_update_field_witness :
    ((TaskHandler.Update quietEnv worldA hexOne (some alice)
          (some [("owner_id", .oid 8), ("id", .str "x"), ("deleted_at", .date 9),
                 ("created_at", .date 9)])).1
        = WriteError 400 "no_updates" "No valid fields to update"
      ∧ (TaskHandler.Update quietEnv worldA hexOne (some alice)
          (some [("owner_id", .oid 8), ("id", .str "x"), ("deleted_at", .date 9),
                 ("created_at", .date 9)])).2 = worldA.logged (.FindOne 1))
    ∧ ((TaskHandler.Update quietEnv worldA hexOne (some alice)
          (some [("title", .str "B"), ("owner_id", .oid 8), ("description", .str "d"),
                 ("deleted_at", .date 9), ("status", .str "done"),
                 ("created_at", .date 9)])).1.status = 200
      ∧ (TaskHandler.Update quietEnv worldA hexOne (some alice)
          (some [("title", .str "B"), ("owner_id", .oid 8), ("description", .str "d"),
                 ("deleted_at", .date 9), ("status", .str "done"),
                 ("created_at", .date 9)])).2.tasks
          = updateFirst (liveWithID 1)
              (fun d => d.applySet [("title", .str "B"), ("description", .str "d"),
                ("status", .str "done"), ("updated_at", .date 2)]) worldA.tasks)
    ∧ updateFirst (liveWithID 1)
        (fun d => d.applySet [("title", .str "B"), ("description", .str "d"),
          ("status", .str "done"), ("updated_at", .date 2)]) worldA.tasks
      = [[("_id", .oid 1), ("title", .str "B"), ("description", .str "d"), ("status", .str "done"),
          ("owner_id", .oid 7), ("created_at", .date 0), ("updated_at", .date 2)]] :=
  ⟨(C4_update_field_filter quietEnv worldA hexOne 1 alice taskA
      [("owner_id", .oid 8), ("id", .str "x"), ("deleted_at", .date 9), ("created_at", .date 9)]
      (by decide) (by rfl) (Or.inl (by decide))).1
      (fun kv hkv => by
        simp only [List.mem_cons, List.mem_singleton, List.not_mem_nil, or_false] at hkv
        rcases hkv with h | h | h | h <;> (rw [h]; decide)),
   ((C4_update_field_filter quietEnv worldA hexOne 1 alice taskA
      [("title", .str "B"), ("owner_id", .oid 8), ("description", .str "d"),
       ("deleted_at", .date 9), ("status", .str "done"), ("created_at", .date 9)]
      (by decide) (by rfl) (Or.inl (by decide))).2.1
      ⟨("title", .str "B"), List.mem_cons_self _ _, Or.inl rfl⟩).2.1 (by rfl),
   rfl⟩

/-! ## Deleting the one live record of an id -/

theorem Delete_result (e : Env) (w : World) (id : ObjectID) :
    (TaskDAO.Delete e w id).1 = (e.faults w.trace.length).map StoreErr.Fault := by
  unfold TaskDAO.Delete timeNow
  exact UpdateOne_result e _ id _

theorem Delete_tasks (e : Env) (w : World) (id : ObjectID) :
    (TaskDAO.Delete e w id).2.tasks
      = if (e.faults w.trace.length).isSome then w.tasks
        else updateFirst (liveWithID id)
          (fun d => d.applySet [("deleted_at", .date (toDateTime (e.clock w.reads))),
            ("updated_at", .date (toDateTime (e.clock (w.reads + 1))))]) w.tasks := by
  unfold TaskDAO.Delete Collection.UpdateOne roundTrip timeNow
  dsimp only
  split
  · next msg h =>
    have h' : e.faults w.trace.length = some msg := h
    simp [h']
  · next h =>
    have h' : e.faults w.trace.length = none := h
    simp [h']

theorem notDeleted_after_delete (d : Doc) (v v' : Value) :
    notDeleted (d.applySet [("deleted_at", v), ("updated_at", v')]) = false := by
  simp [notDeleted, Doc.applySet, Doc.get_set]

theorem no_live_after_updateFirst (id : ObjectID) (f : Doc → Doc)
    (hf : ∀ d, notDeleted (f d) = false) (l : List Doc)
    (hu : l.Pairwise (fun a b => ∀ id, hasID id a = true → hasID id b = false)) :
    ∀ d ∈ updateFirst (liveWithID id) f l, liveWithID id d = false := by
  induction l with
  | nil => intro d hd; simp [updateFirst] at hd
  | cons x xs ih =>
    rw [List.pairwise_cons] at hu
    intro d hd
    unfold updateFirst at hd
    by_cases hx : liveWithID id x = true
    · rw [if_pos hx] at hd
      rcases List.mem_cons.mp hd with rfl | hmem
      · simp [liveWithID, hf]
      · have hid : hasID id x = true := by
          simp only [liveWithID, Bool.and_eq_true] at hx
          exact hx.1
        simp [liveWithID, hu.1 d hmem id hid]
    · rw [if_neg hx] at hd
      rcases List.mem_cons.mp hd with rfl | hmem
      · simpa using hx
      · exact ih hu.2 d hmem

/-! ## C5: store-level writes on an id that has no live record -/

/-- C5, as the code has it.  When no live record answers to `id`, TaskDAO.Update and
TaskDAO.Delete leave the collection as it was and return only the error of the
UpdateOne round trip: nil unless that round trip itself fails, never a not-found
error; the 404 comes from the handlers, whose lookup fails first.  After a
TaskDAO.Delete whose round trip succeeded on a collection with unique ids no live
record answers to `id`, so a second TaskDAO.Delete is such a call. -/
theorem C5_store_writes_on_missing_id (e : Env) (w : World) (id : ObjectID) :
    ((∀ d ∈ w.tasks, liveWithID id d = false) →
        (∀ u, (TaskDAO.Update e w id u).1 = (e.faults w.trace.length).map StoreErr.Fault
            ∧ (TaskDAO.Update e w id u).2.tasks = w.tasks)
        ∧ (TaskDAO.Delete e w id).1 = (e.faults w.trace.length).map StoreErr.Fault
        ∧ (TaskDAO.Delete e w id).2.tasks = w.tasks
        ∧ (∀ idStr user body, ObjectIDFromHex idStr = some id →
            (TaskHandler.Update e w idStr (some user) body).1.status = 404
            ∧ (TaskHandler.Delete e w idStr (some user)).1.status = 404))
    ∧ (w.idsUnique → e.faults w.trace.length = none →
        (TaskDAO.Delete e w id).1 = none
        ∧ (∀ d ∈ (TaskDAO.Delete e w id).2.tasks, liveWithID id d = false)
        ∧ (TaskDAO.Delete e (TaskDAO.Delete e w id).2 id).1
            = (e.faults (w.trace.length + 1)).map StoreErr.Fault
        ∧ (TaskDAO.Delete e (TaskDAO.Delete e w id).2 id).2.tasks = (TaskDAO.Delete e w id).2.tasks) := by
  constructor
  · intro hnone
    refine ⟨fun u => ⟨Update_result e w id u, Update_tasks_of_none e w id u hnone⟩,
      Delete_result e w id, Delete_tasks_of_none e w id hnone, fun idStr user body hid => ?_⟩
    have h := handlers_404_of_none e w id idStr hid hnone user body
    exact ⟨h.2.2.1, h.2.2.2.2.1⟩
  · intro hu hfault
    have hlive : ∀ d ∈ (TaskDAO.Delete e w id).2.tasks, liveWithID id d = false := by
      rw [Delete_tasks, hfault]
      simp only [Option.isSome_none, Bool.false_eq_true, if_false]
      exact no_live_after_updateFirst id _ (fun d => notDeleted_after_delete d _ _) w.tasks hu
    have hlen : (TaskDAO.Delete e w id).2.trace.length = w.trace.length + 1 := by
      unfold TaskDAO.Delete Collection.UpdateOne roundTrip timeNow
      dsimp only
      split <;> simp
    refine ⟨?_, hlive, ?_, Delete_tasks_of_none e _ id hlive⟩
    · rw [Delete_result, hfault]; rfl
    · rw [Delete_result, hlen]

/-- C5 at a concrete input: on the empty collection both writes return nil and
change nothing; after alice's task is deleted once at the store, the second
TaskDAO.Delete returns nil as well. -/
theorem C5_store_writes_witness :
    (TaskDAO.Update quietEnv emptyWorld 1 [("title", .str "B")]).1 = none
    ∧ (TaskDAO.Delete quietEnv emptyWorld 1).2.tasks = []
    ∧ (TaskDAO.Delete quietEnv (TaskDAO.Delete quietEnv worldA 1).2 1).1 = none :=
  ⟨(((C5_store_writes_on_missing_id quietEnv emptyWorld 1).1
      (fun d hd => absurd hd (List.not_mem_nil d))).1 [("title", .str "B")]).1,
   ((C5_store_writes_on_missing_id quietEnv emptyWorld 1).1
      (fun d hd => absurd hd (List.not_mem_nil d))).2.2.1,
   ((C5_store_writes_on_missing_id quietEnv worldA 1).2
      (List.pairwise_singleton _ _) rfl).2.2.1⟩

/-- C5 as stated fails: with no round trip failing, TaskDAO.Update and TaskDAO.Delete
on an id that was never created return nil, not a not-found error, and so does the
second of two TaskDAO.Delete calls on the id of alice's task. -/
theorem C5_missing_id_reports_success :
    (TaskDAO.Update quietEnv emptyWorld 1 [("title", .str "B")]).1 = none
    ∧ (TaskDAO.Delete quietEnv emptyWorld 1).1 = none
    ∧ (TaskDAO.Delete quietEnv worldA 1).1 = none
    ∧ (TaskDAO.Delete quietEnv (TaskDAO.Delete quietEnv worldA 1).2 1).1 = none := by
  decide

/-! ## Validation of a task payload -/

theorem length_pos_of_ne_empty (s : String) (h : s ≠ "") : ¬ s.length < 1 := by
  intro hlt
  apply h
  have h0 : s.length = 0 := by omega
  cases s with
  | mk data =>
    have hd : data = [] := List.length_eq_zero.mp h0
    subst hd
    rfl

theorem validateTitle_nil (s : String) : validateTitle s = [] ↔ ¬ (s = "" ∨ s.length > 200) := by
  unfold validateTitle
  by_cases h₁ : s = ""
  · simp [h₁]
  · have h₂ := length_pos_of_ne_empty s h₁
    by_cases h₃ : s.length > 200
    · simp [h₁, h₂, h₃]
    · simp [h₁, h₂, h₃]

theorem validateDescription_nil (s : String) : validateDescription s = [] ↔ ¬ s.length > 1000 := by
  unfold validateDescription
  by_cases h : s.length > 1000
  · simp [h]
  · simp [h]

theorem validateStatus_nil (s : String) :
    validateStatus s = [] ↔ (s = "open" ∨ s = "in_progress" ∨ s = "done") := by
  unfold validateStatus
  by_cases h₁ : s = ""
  · subst h₁
    simp
  · by_cases h₂ : s = "open" ∨ s = "in_progress" ∨ s = "done"
    · simp [h₁, h₂]
    · simp [h₁, h₂]

/-- The task TaskHandler.Create validates and hands to the DAO: owner forced to the
caller, empty status replaced by "open". -/
theorem ValidateStruct_nil (user : Claims) (task : Task) :
    ValidateStruct (if ({ task with OwnerID := user.UserID } : Task).Status = ""
        then { task with OwnerID := user.UserID, Status := StatusOpen }
        else { task with OwnerID := user.UserID }) = [] ↔ ¬ invalidPayload task := by
  unfold ValidateStruct invalidPayload
  rw [List.append_eq_nil, List.append_eq_nil, validateTitle_nil, validateDescription_nil,
    validateStatus_nil]
  by_cases hs : task.Status = ""
  · simp [hs, StatusOpen]
    tauto
  · simp [hs]
    tauto

theorem InsertOne_ok (e : Env) (w : World) (t : Task) (h : (Collection.InsertOne e w t).1 = none) :
    ∃ id, (Collection.InsertOne e w t).2.tasks = w.tasks ++ [("_id", .oid id) :: t.toDocBody] := by
  unfold Collection.InsertOne roundTrip NewObjectID at h ⊢
  dsimp only at h ⊢
  by_cases hz : t.ID = NilObjectID
  · simp only [hz, if_true] at h ⊢
    split at h
    · simp at h
    · next hf =>
      split at h
      · simp at h
      · next hdup =>
        refine ⟨e.oids w.minted, ?_⟩
        rw [if_neg hdup]
  · simp only [hz, if_false] at h ⊢
    split at h
    · simp at h
    · next hf =>
      split at h
      · simp at h
      · next hdup =>
        refine ⟨t.ID, ?_⟩
        rw [if_neg hdup]

/-! ## C6: validation in Create -/

/-- C6. For an authenticated caller and a decodable payload, TaskHandler.Create
answers 400 validation_error exactly when the title is empty, the title has more
than 200 characters, the description has more than 1000 characters, or the status is
non-empty and none of open, in_progress, done; such an answer leaves the world
untouched (no InsertOne is issued).  A payload with an empty status is judged on
title and description alone, and when it is created (201) the task returned and the
document appended to the collection both carry the status "open". -/
theorem C6_create_validation (e : Env) (w : World) (user : Claims) (task : Task) :
    (isValidationError (TaskHandler.Create e w (some user) (some task)).1 ↔ invalidPayload task)
    ∧ (isValidationError (TaskHandler.Create e w (some user) (some task)).1 →
        (TaskHandler.Create e w (some user) (some task)).2 = w)
    ∧ (task.Status = "" →
        (isValidationError (TaskHandler.Create e w (some user) (some task)).1 ↔
            (task.Title = "" ∨ task.Title.length > 200 ∨ task.Description.length > 1000))
        ∧ ((TaskHandler.Create e w (some user) (some task)).1.status = 201 →
            ∃ t d, (TaskHandler.Create e w (some user) (some task)).1 = WriteJSON 201 (.task t)
              ∧ t.Status = "open"
              ∧ (TaskHandler.Create e w (some user) (some task)).2.tasks = w.tasks ++ [d]
              ∧ d.get "status" = some (.str "open"))) := by
  have hv := ValidateStruct_nil user task
  have main : (isValidationError (TaskHandler.Create e w (some user) (some task)).1 ↔ invalidPayload task)
      ∧ (isValidationError (TaskHandler.Create e w (some user) (some task)).1 →
        (TaskHandler.Create e w (some user) (some task)).2 = w) := by
    unfold TaskHandler.Create
    dsimp only
    by_cases hinv : invalidPayload task
    · have hne : ValidateStruct (if ({ task with OwnerID := user.UserID } : Task).Status = ""
          then { task with OwnerID := user.UserID, Status := StatusOpen }
          else { task with OwnerID := user.UserID }) ≠ [] := fun h => (hv.mp h) hinv
      split
      · next err errs heq =>
        exact ⟨⟨fun _ => hinv, fun _ => ⟨_, rfl⟩⟩, fun _ => rfl⟩
      · next heq => exact absurd heq hne
    · have hnil := hv.mpr hinv
      split
      · next err errs heq => rw [hnil] at heq; simp at heq
      · next heq =>
        have hno : ¬ isValidationError ((match TaskDAO.Create e w
            (if ({ task with OwnerID := user.UserID } : Task).Status = ""
              then { task with OwnerID := user.UserID, Status := StatusOpen }
              else { task with OwnerID := user.UserID }) with
            | ((_, some _), w₁) => (WriteError 500 "database_error" "Failed to create task", w₁)
            | ((task₃, none), w₁) => (WriteJSON 201 (.task task₃), w₁)).1) := by
          rintro ⟨msg, hmsg⟩
          revert hmsg
          split <;> simp [WriteError, WriteJSON]
        exact ⟨⟨fun h => absurd h hno, fun h => absurd h hinv⟩, fun h => absurd h hno⟩
  refine ⟨main.1, main.2, fun hs => ⟨?_, ?_⟩⟩
  · rw [main.1]
    unfold invalidPayload
    simp [hs]
  · intro h201
    unfold TaskHandler.Create at h201 ⊢
    dsimp only at h201 ⊢
    simp only [hs, if_true] at h201 ⊢
    split at h201
    · simp [WriteError, WriteJSON] at h201
    · next heq =>
      unfold TaskDAO.Create NewObjectID timeNow at h201 ⊢
      dsimp only at h201 ⊢
      rcases hins : Collection.InsertOne e
          { tasks := w.tasks, trace := w.trace, reads := w.reads + 1 + 1, minted := w.minted + 1 }
          { ID := e.oids w.minted, Title := task.Title, Description := task.Description,
            Status := StatusOpen, OwnerID := user.UserID, CreatedAt := e.clock w.reads,
            UpdatedAt := e.clock (w.reads + 1), DeletedAt := task.DeletedAt } with ⟨err, w₄⟩
      rw [hins] at h201
      cases err with
      | some err => simp [WriteError, WriteJSON] at h201
      | none =>
        have hok := InsertOne_ok e _ _ (by rw [hins])
        rw [hins] at hok
        obtain ⟨id, hid⟩ := hok
        exact ⟨_, _, rfl, rfl, hid, rfl⟩

/-- C6 at a concrete input: a payload with title "A" and an empty status is created
with status "open"; the same payload with status "later" is a validation error. -/
theorem C6_create_validation_witness :
    (∃ t d, (TaskHandler.Create quietEnv emptyWorld (some alice) (some payloadA)).1
          = WriteJSON 201 (.task t)
        ∧ t.Status = "open"
        ∧ (TaskHandler.Create quietEnv emptyWorld (some alice) (some payloadA)).2.tasks
          = emptyWorld.tasks ++ [d]
        ∧ d.get "status" = some (.str "open"))
    ∧ isValidationError
        (TaskHandler.Create quietEnv emptyWorld (some alice) (some { payloadA with Status := "later" })).1 :=
  ⟨((C6_create_validation quietEnv emptyWorld alice payloadA).2.2 (by decide)).2 (by decide),
   (C6_create_validation quietEnv emptyWorld alice { payloadA with Status := "later" }).1.mpr
     (Or.inr (Or.inr (Or.inr (by decide))))⟩

/-! ## Members that `$set` leaves alone -/

theorem Doc.get_applySet_of_ne (set : Doc) (k : String) (h : ∀ kv ∈ set, kv.1 ≠ k) (d : Doc) :
    Doc.get (d.applySet set) k = Doc.get d k := by
  unfold Doc.applySet
  induction set generalizing d with
  | nil => rfl
  | cons kv rest ih =>
    rw [List.foldl_cons, ih (fun x hx => h x (List.mem_cons_of_mem _ hx)), Doc.get_set]
    have hne : k ≠ kv.1 := fun heq => h kv (List.mem_cons_self _ _) heq.symm
    simp [hne]

theorem Doc.mem_set (d : Doc) (k : String) (v : Value) (kv : String × Value)
    (h : kv ∈ Doc.set d k v) : kv ∈ d ∨ kv = (k, v) := by
  induction d with
  | nil =>
    simp [Doc.set] at h
    exact Or.inr h
  | cons x rest ih =>
    obtain ⟨k₀, v₀⟩ := x
    unfold Doc.set at h
    by_cases h₀ : k₀ = k
    · simp only [h₀, if_true] at h
      rcases List.mem_cons.mp h with h₁ | h₁
      · exact Or.inr h₁
      · exact Or.inl (List.mem_cons_of_mem _ h₁)
    · simp only [h₀, if_false] at h
      rcases List.mem_cons.mp h with h₁ | h₁
      · exact Or.inl (h₁ ▸ List.mem_cons_self _ _)
      · rcases ih h₁ with h₂ | h₂
        · exact Or.inl (List.mem_cons_of_mem _ h₂)
        · exact Or.inr h₂

theorem keepsIdentity_stamped (u : Doc) (v : Value) (h : ∀ kv ∈ u, allowedFields kv.1 = true) :
    keepsIdentity (Doc.set u "updated_at" v) := by
  intro kv hkv
  rcases Doc.mem_set u _ _ kv hkv with h₁ | h₁
  · have ha := h kv h₁
    constructor
    · intro heq; rw [heq] at ha; exact absurd ha (by decide)
    · intro heq; rw [heq] at ha; exact absurd ha (by decide)
  · rw [h₁]
    constructor <;> simp

theorem hasID_applySet (set : Doc) (h : keepsIdentity set) (id : ObjectID) (d : Doc) :
    hasID id (d.applySet set) = hasID id d := by
  unfold hasID
  rw [Doc.get_applySet_of_ne set "_id" (fun kv hkv => (h kv hkv).1)]

theorem ownerOf_updateFirst (p : Doc → Bool) (set : Doc) (h : keepsIdentity set) (id : ObjectID)
    (l : List Doc) :
    ((updateFirst p (fun d => d.applySet set) l).find? (hasID id)).bind (fun d => d.get "owner_id")
      = (l.find? (hasID id)).bind (fun d => d.get "owner_id") := by
  induction l with
  | nil => rfl
  | cons x xs ih =>
    unfold updateFirst
    by_cases hp : p x = true
    · simp only [hp, if_true, List.find?_cons, hasID_applySet set h]
      cases hasID id x with
      | true =>
        simp only [Option.bind]
        exact Doc.get_applySet_of_ne set "owner_id" (fun kv hkv => (h kv hkv).2) x
      | false => rfl
    · have hp' : p x = false := by simpa using hp
      simp only [hp', Bool.false_eq_true, if_false, List.find?_cons]
      cases hasID id x with
      | true => rfl
      | false => exact ih

/-! ## The owner of a stored record across the operations -/

theorem ownerOf_congr (w w' : World) (id : ObjectID) (h : w'.tasks = w.tasks) :
    ownerOf w' id = ownerOf w id := by
  unfold ownerOf
  rw [h]

theorem ownerOf_append (w w' : World) (id : ObjectID) (d : Doc) (x : Value)
    (h : w'.tasks = w.tasks ++ [d]) (hx : ownerOf w id = some x) : ownerOf w' id = some x := by
  unfold ownerOf at hx ⊢
  rw [h, List.find?_append]
  cases hf : w.tasks.find? (hasID id) with
  | none => rw [hf] at hx; simp at hx
  | some d' => rw [hf] at hx; simpa using hx

theorem ownerOf_GetByID (e : Env) (w : World) (i id : ObjectID) :
    ownerOf (TaskDAO.GetByID e w i).2 id = ownerOf w id :=
  ownerOf_congr _ _ id (by rw [GetByID_world]; rfl)

theorem ownerOf_Update (e : Env) (w : World) (i id : ObjectID) (u : Doc)
    (hu : ∀ kv ∈ u, allowedFields kv.1 = true) :
    ownerOf (TaskDAO.Update e w i u).2 id = ownerOf w id := by
  unfold ownerOf
  rw [Update_tasks]
  split
  · rfl
  · exact ownerOf_updateFirst _ _ (keepsIdentity_stamped u _ hu) id w.tasks

theorem ownerOf_Delete (e : Env) (w : World) (i id : ObjectID) :
    ownerOf (TaskDAO.Delete e w i).2 id = ownerOf w id := by
  unfold ownerOf
  rw [Delete_tasks]
  split
  · rfl
  · refine ownerOf_updateFirst _ _ ?_ id w.tasks
    intro kv hkv
    simp only [List.mem_cons, List.mem_singleton, List.not_mem_nil, or_false] at hkv
    rcases hkv with h | h <;> (rw [h]; constructor <;> simp)

theorem InsertOne_tasks (e : Env) (w : World) (t : Task) :
    (Collection.InsertOne e w t).2.tasks = w.tasks
      ∨ ∃ d, (Collection.InsertOne e w t).2.tasks = w.tasks ++ [d] := by
  unfold Collection.InsertOne roundTrip NewObjectID
  dsimp only
  by_cases hz : t.ID = NilObjectID
  · simp only [hz, if_true]
    split
    · exact Or.inl rfl
    · split
      · exact Or.inl rfl
      · exact Or.inr ⟨_, rfl⟩
  · simp only [hz, if_false]
    split
    · exact Or.inl rfl
    · split
      · exact Or.inl rfl
      · exact Or.inr ⟨_, rfl⟩

theorem Create_tasks (e : Env) (w : World) (t : Task) :
    (TaskDAO.Create e w t).2.tasks = w.tasks ∨ ∃ d, (TaskDAO.Create e w t).2.tasks = w.tasks ++ [d] := by
  unfold TaskDAO.Create NewObjectID timeNow
  dsimp only
  exact InsertOne_tasks e _ _

theorem ownerOf_Create (e : Env) (w : World) (t : Task) (id : ObjectID) (x : Value)
    (hx : ownerOf w id = some x) : ownerOf (TaskDAO.Create e w t).2 id = some x := by
  rcases Create_tasks e w t with h | ⟨d, h⟩
  · rw [ownerOf_congr _ _ id h]; exact hx
  · exact ownerOf_append _ _ id d x h hx

/-- Serving one request keeps the owner that a stored record has. -/
theorem ownerOf_serve (e : Env) (w : World) (r : Request) (id : ObjectID) (x : Value)
    (hx : ownerOf w id = some x) : ownerOf (serve e w r).2 id = some x := by
  cases r with
  | Create user body =>
    unfold serve TaskHandler.Create
    dsimp only
    repeat' split
    all_goals first
      | exact hx
      | (next heq =>
          have h := congrArg (fun p => ownerOf p.2 id) heq
          simp only at h
          rw [← h]
          exact ownerOf_Create e w _ id x hx)
  | List user query =>
    unfold serve TaskHandler.List
    dsimp only
    split
    · exact hx
    · next u =>
      have hw := List_world e w (buildFilter u query)
      split
      all_goals
        next heq =>
          rw [heq] at hw
          simp only at hw
          rw [hw]
          exact hx
  | GetByID idStr =>
    unfold serve TaskHandler.GetByID
    dsimp only
    split
    · exact hx
    · next i hi =>
      have hw := ownerOf_GetByID e w i id
      split
      all_goals
        next heq =>
          rw [heq] at hw
          simp only at hw
          rw [hw]
          exact hx
  | Update idStr user body =>
    unfold serve TaskHandler.Update
    dsimp only
    split
    · exact hx
    · next i hi =>
      split
      · exact hx
      · have hw := ownerOf_GetByID e w i id
        rcases hg : TaskDAO.GetByID e w i with ⟨r₁, w₁⟩
        rw [hg] at hw
        simp only at hw
        have hx₁ : ownerOf w₁ id = some x := by rw [hw]; exact hx
        cases r₁ with
        | error err => exact hx₁
        | ok task =>
          dsimp only
          split
          · exact hx₁
          · cases body with
            | none => exact hx₁
            | some updates =>
              dsimp only
              split
              · exact hx₁
              · have hu := ownerOf_Update e w₁ i id (updates.filter (fun kv => allowedFields kv.1))
                  (fun kv hkv => (List.mem_filter.mp hkv).2)
                rcases hupd : TaskDAO.Update e w₁ i (updates.filter (fun kv => allowedFields kv.1))
                  with ⟨r₂, w₂⟩
                rw [hupd] at hu
                simp only at hu
                have hx₂ : ownerOf w₂ id = some x := by rw [hu]; exact hx₁
                cases r₂ with
                | some err => exact hx₂
                | none =>
                  dsimp only
                  have hw₃ := ownerOf_GetByID e w₂ i id
                  rcases hg₃ : TaskDAO.GetByID e w₂ i with ⟨r₃, w₃⟩
                  rw [hg₃] at hw₃
                  simp only at hw₃
                  cases r₃ with
                  | error err => dsimp only; rw [hw₃]; exact hx₂
                  | ok t₃ => dsimp only; rw [hw₃]; exact hx₂
  | Delete idStr user =>
    unfold serve TaskHandler.Delete
    dsimp only
    split
    · exact hx
    · next i hi =>
      split
      · exact hx
      · have hw := ownerOf_GetByID e w i id
        rcases hg : TaskDAO.GetByID e w i with ⟨r₁, w₁⟩
        rw [hg] at hw
        simp only at hw
        have hx₁ : ownerOf w₁ id = some x := by rw [hw]; exact hx
        cases r₁ with
        | error err => exact hx₁
        | ok task =>
          dsimp only
          split
          · exact hx₁
          · have hd := ownerOf_Delete e w₁ i id
            rcases hdel : TaskDAO.Delete e w₁ i with ⟨r₂, w₂⟩
            rw [hdel] at hd
            simp only at hd
            cases r₂ with
            | some err => dsimp only; rw [hd]; exact hx₁
            | none => dsimp only; rw [hd]; exact hx₁

theorem ownerOf_serveAll (e : Env) (reqs : List Request) (w : World) (id : ObjectID) (x : Value)
    (hx : ownerOf w id = some x) : ownerOf (serveAll e w reqs) id = some x := by
  induction reqs generalizing w with
  | nil => exact hx
  | cons r rs ih => exact ih _ (ownerOf_serve e w r id x hx)

theorem InsertOne_fresh (e : Env) (w : World) (t : Task) (h : (Collection.InsertOne e w t).1 = none) :
    ∃ id, (Collection.InsertOne e w t).2.tasks = w.tasks ++ [("_id", .oid id) :: t.toDocBody]
      ∧ w.tasks.any (hasID id) = false ∧ (t.ID ≠ NilObjectID → id = t.ID) := by
  unfold Collection.InsertOne roundTrip NewObjectID at h ⊢
  dsimp only at h ⊢
  by_cases hz : t.ID = NilObjectID
  · simp only [hz, if_true] at h ⊢
    split at h
    · simp at h
    · next hf =>
      split at h
      · simp at h
      · next hdup =>
        refine ⟨e.oids w.minted, ?_, by simpa using hdup, fun hne => absurd rfl hne⟩
        rw [if_neg hdup]
  · simp only [hz, if_false] at h ⊢
    split at h
    · simp at h
    · next hf =>
      split at h
      · simp at h
      · next hdup =>
        refine ⟨t.ID, ?_, by simpa using hdup, fun _ => rfl⟩
        rw [if_neg hdup]

/-! ## C7: the owner is set at creation and never changes -/

/-- C7. When TaskHandler.Create answers 201 with task `t` for caller `U`, then
whatever owner_id the body carried, `t` is owned by `U`, the document appended to
the collection has `owner_id` equal to `U`'s id, and after any sequence of further
requests to the task endpoints (Create, List, GetByID, Update, Delete, by any caller,
with any body) the stored record with that `_id` still has `owner_id` equal to
`U`'s id. -/
theorem C7_owner_set_at_creation_and_kept (e : Env) (w : World) (U : Claims) (body t : Task)
    (hcreate : (TaskHandler.Create e w (some U) (some body)).1 = WriteJSON 201 (.task t)) :
    t.OwnerID = U.UserID
    ∧ ∃ id d, (TaskHandler.Create e w (some U) (some body)).2.tasks = w.tasks ++ [d]
        ∧ d.get "_id" = some (.oid id)
        ∧ (t.ID ≠ NilObjectID → id = t.ID)
        ∧ d.get "owner_id" = some (.oid U.UserID)
        ∧ ∀ reqs, ownerOf (serveAll e (TaskHandler.Create e w (some U) (some body)).2 reqs) id
            = some (.oid U.UserID) := by
  unfold TaskHandler.Create at hcreate ⊢
  dsimp only at hcreate ⊢
  split at hcreate
  · simp [WriteError, WriteJSON] at hcreate
  · next heq =>
    unfold TaskDAO.Create NewObjectID timeNow at hcreate ⊢
    dsimp only at hcreate ⊢
    generalize hT : (if ({ body with OwnerID := U.UserID } : Task).Status = ""
        then ({ body with OwnerID := U.UserID, Status := StatusOpen } : Task)
        else { body with OwnerID := U.UserID }) = T at hcreate ⊢
    have hTo : T.OwnerID = U.UserID := by
      rw [← hT]
      split <;> rfl
    rcases hins : Collection.InsertOne e
        { tasks := w.tasks, trace := w.trace, reads := w.reads + 1 + 1, minted := w.minted + 1 }
        { T with ID := e.oids w.minted, CreatedAt := e.clock w.reads,
                 UpdatedAt := e.clock (w.reads + 1) } with ⟨err, w₄⟩
    rw [hins] at hcreate
    cases err with
    | some err => simp [WriteError, WriteJSON] at hcreate
    | none =>
      simp only [WriteJSON, Response.mk.injEq, Option.some.injEq, Payload.task.injEq, true_and] at hcreate
      subst hcreate
      have hok := InsertOne_fresh e _ _ (by rw [hins])
      rw [hins] at hok
      obtain ⟨id, htasks, hfresh, hid⟩ := hok
      dsimp only at htasks hfresh hid ⊢
      refine ⟨hTo, id, _, htasks, rfl, hid, ?_, ?_⟩
      · simp [Doc.get, Task.toDocBody, List.lookup, hTo]
      · intro reqs
        apply ownerOf_serveAll
        unfold ownerOf
        rw [htasks, List.find?_append]
        have hnone : w.tasks.find? (hasID id) = none := by
          rw [List.find?_eq_none]
          intro d hd hd'
          have := List.any_eq_true.mpr ⟨d, hd, hd'⟩
          rw [hfresh] at this
          exact absurd this (by simp)
        rw [hnone]
        simp [hasID, Doc.get, List.lookup, Value.matchesOid, Task.toDocBody, hTo]

/-- C7 at a concrete input: alice creates a task whose body names owner 99; bob and
an admin then patch it with owner_id in the field map and alice deletes it; the
stored record is still owned by alice. -/
theorem C7_owner_kept_witness :
    taskA.OwnerID = alice.UserID
    ∧ ownerOf (serveAll quietEnv worldA
        [.Update hexOne (some bob) (some [("owner_id", .oid 8)]),
         .Update hexOne (some root) (some [("title", .str "B"), ("owner_id", .oid 9)]),
         .Delete hexOne (some alice)]) 1 = some (.oid 7) :=
  match C7_owner_set_at_creation_and_kept quietEnv emptyWorld alice payloadA taskA (by rfl) with
  | ⟨h₁, _, _, _, _, hid, _, hall⟩ =>
    ⟨h₁, by
      have h := hid (by decide)
      subst h
      exact hall _⟩

/-! ## C9: the two timestamps written by Create -/

/-- C9, as the code has it.  TaskDAO.Create reads the clock twice: the task it returns
has created_at equal to the first reading and updated_at equal to the second, and
when the insert succeeds the appended document holds the two readings cut to whole
milliseconds.  The two are equal when the two readings are equal, and the stored
ones when the readings fall in the same millisecond. -/
theorem C9_create_timestamps (e : Env) (w : World) (task : Task) :
    (TaskDAO.Create e w task).1.1.CreatedAt = e.clock w.reads
    ∧ (TaskDAO.Create e w task).1.1.UpdatedAt = e.clock (w.reads + 1)
    ∧ ((TaskDAO.Create e w task).1.2 = none →
        ∃ d, (TaskDAO.Create e w task).2.tasks = w.tasks ++ [d]
          ∧ d.get "created_at" = some (.date (toDateTime (e.clock w.reads)))
          ∧ d.get "updated_at" = some (.date (toDateTime (e.clock (w.reads + 1)))))
    ∧ (e.clock w.reads = e.clock (w.reads + 1) →
        (TaskDAO.Create e w task).1.1.CreatedAt = (TaskDAO.Create e w task).1.1.UpdatedAt)
    ∧ (toDateTime (e.clock w.reads) = toDateTime (e.clock (w.reads + 1)) →
        (TaskDAO.Create e w task).1.2 = none →
        ∃ d, (TaskDAO.Create e w task).2.tasks = w.tasks ++ [d]
          ∧ d.get "created_at" = d.get "updated_at") := by
  have hstored : (TaskDAO.Create e w task).1.2 = none →
        ∃ d, (TaskDAO.Create e w task).2.tasks = w.tasks ++ [d]
          ∧ d.get "created_at" = some (.date (toDateTime (e.clock w.reads)))
          ∧ d.get "updated_at" = some (.date (toDateTime (e.clock (w.reads + 1)))) := by
    unfold TaskDAO.Create NewObjectID timeNow
    dsimp only
    intro h
    obtain ⟨id, hid⟩ := InsertOne_ok e _ _ h
    exact ⟨_, hid, rfl, rfl⟩
  refine ⟨rfl, rfl, hstored, fun h => h, fun hms hok => ?_⟩
  obtain ⟨d, hd, hc, hu⟩ := hstored hok
  exact ⟨d, hd, by rw [hc, hu, hms]⟩

/-- C9 at a concrete input: with the clock standing still the created task has equal
timestamps, in the answer and in the collection. -/
theorem C9_create_timestamps_witness :
    (TaskDAO.Create frozenEnv emptyWorld payloadA).1.1.CreatedAt
        = (TaskDAO.Create frozenEnv emptyWorld payloadA).1.1.UpdatedAt
    ∧ ∃ d, (TaskDAO.Create frozenEnv emptyWorld payloadA).2.tasks = emptyWorld.tasks ++ [d]
        ∧ d.get "created_at" = d.get "updated_at" :=
  ⟨(C9_create_timestamps frozenEnv emptyWorld payloadA).2.2.2.1 (by decide),
   (C9_create_timestamps frozenEnv emptyWorld payloadA).2.2.2.2 (by decide) (by decide)⟩

/-- C9 as stated fails: with a clock that advances one millisecond per reading,
alice's valid creation is answered 201 with created_at 0 and updated_at 1 ms, and
the stored record reads back with the same two distinct timestamps. -/
theorem C9_timestamps_differ :
    (TaskHandler.Create quietEnv emptyWorld (some alice) (some payloadA)).1 = WriteJSON 201 (.task taskA)
    ∧ taskA.CreatedAt ≠ taskA.UpdatedAt
    ∧ (TaskDAO.GetByID quietEnv worldA 1).1 = .ok taskA := by
  refine ⟨by decide, by decide, by rfl⟩

/-! ## C10: store failures at the handlers -/

/-- Whenever the lookup's round trip fails, whatever the failure, the three handlers
that start with TaskDAO.GetByID answer 404. -/
theorem lookup_fault_is_not_found (e : Env) (w : World) (idStr : String) (id : ObjectID)
    (msg : String) (user : Claims) (body : Option Doc)
    (hid : ObjectIDFromHex idStr = some id) (hfault : e.faults w.trace.length = some msg) :
    (TaskHandler.GetByID e w idStr).1 = WriteError 404 "not_found" "Task not found"
    ∧ (TaskHandler.Update e w idStr (some user) body).1 = WriteError 404 "not_found" "Task not found"
    ∧ (TaskHandler.Delete e w idStr (some user)).1 = WriteError 404 "not_found" "Task not found" := by
  have hg : TaskDAO.GetByID e w id = (.error (.Fault msg), w.logged (.FindOne id)) := by
    unfold TaskDAO.GetByID Collection.FindOne roundTrip
    simp [hfault, World.logged]
  simp [TaskHandler.GetByID, TaskHandler.Update, TaskHandler.Delete, hid, hg]

/-- C10 at the failing input.  Alice's task is stored and live (a fault-free lookup
returns it), yet when the store times out her GET, PATCH and DELETE on its id are
answered 404 not_found, while Create and List answer 500 for the same failure; and
when only the read-back after a successful PATCH times out the answer is 200 with
no task. -/
theorem C10_lookup_timeout_answers_404 :
    (TaskDAO.GetByID quietEnv worldA 1).1 = .ok taskA
    ∧ (TaskDAO.GetByID timeoutEnv worldA 1).1 = .error (.Fault "context deadline exceeded")
    ∧ (TaskHandler.GetByID timeoutEnv worldA hexOne).1 = WriteError 404 "not_found" "Task not found"
    ∧ (TaskHandler.Update timeoutEnv worldA hexOne (some alice) (some [("title", .str "B")])).1
        = WriteError 404 "not_found" "Task not found"
    ∧ (TaskHandler.Delete timeoutEnv worldA hexOne (some alice)).1
        = WriteError 404 "not_found" "Task not found"
    ∧ (TaskHandler.Create timeoutEnv worldA (some alice) (some payloadA)).1
        = WriteError 500 "database_error" "Failed to create task"
    ∧ (TaskHandler.List timeoutEnv worldA (some alice) []).1
        = WriteError 500 "database_error" "Failed to list tasks"
    ∧ (TaskHandler.Update lateFaultEnv worldA hexOne (some alice) (some [("title", .str "B")])).1
        = WriteSuccess (.taskPtr none) := by
  refine ⟨by rfl, by rfl, by decide, by decide, by decide, by decide, by decide, by decide⟩

/-! ## The bearer header -/

theorem dropLeading_append (p r : List Char) : dropLeading p (p ++ r) = some r := by
  induction p with
  | nil => cases r <;> rfl
  | cons c cs ih => simp [dropLeading, ih]

theorem TrimPrefix_bearer (tok : String) : TrimPrefix ("Bearer " ++ tok) "Bearer " = tok := by
  unfold TrimPrefix
  rw [String.data_append, dropLeading_append]

theorem bearer_ne_empty (tok : String) : "Bearer " ++ tok ≠ "" := by
  intro h
  have := congrArg String.length h
  rw [String.length_append] at this
  have h7 : "Bearer ".length = 7 := by decide
  have h0 : "".length = 0 := by decide
  omega

theorem bearer_ne_self (tok : String) : tok ≠ "Bearer " ++ tok := by
  intro h
  have := congrArg String.length h
  rw [String.length_append] at this
  have h7 : "Bearer ".length = 7 := by decide
  omega

/-- The middleware on a bearer header is ParseWithClaims on the token. -/
theorem JWTAuth_bearer (lib : JWTLib) (secret : String) (e : Env) (w : World) (tok : String) :
    (JWTAuth lib secret e w ("Bearer " ++ tok)).1
      = match (ParseWithClaims lib e w tok (utf8Bytes secret)).1 with
        | none => .error (unauthorized
            "\x7b\"error\":\"invalid_token\",\"message\":\"Invalid or expired token\"\x7d")
        | some claims => .ok claims := by
  unfold JWTAuth
  rw [if_neg (bearer_ne_empty tok), TrimPrefix_bearer, if_neg (bearer_ne_self tok)]
  rcases ParseWithClaims lib e w tok (utf8Bytes secret) with ⟨r, w₁⟩
  cases r <;> rfl

/-- ParseWithClaims on a token that parses to an HS256 token: accepted exactly when
the HMAC of the signing string under the key is the signature and the claims are
valid at the next clock reading. -/
theorem ParseWithClaims_HS256 (lib : JWTLib) (e : Env) (w : World) (tok : String) (key : List Nat)
    (p : ParsedToken) (hp : lib.parse tok = some p) (halg : p.alg = "HS256") :
    (ParseWithClaims lib e w tok key).1
      = if hmac lib.sha256 64 key (utf8Bytes p.signingString) = p.signature
            ∧ validClaims (e.clock w.reads) p.claims = true
        then some p.claims else none := by
  unfold ParseWithClaims verifySignature timeNow
  simp only [hp, halg, if_true]
  by_cases hs : hmac lib.sha256 64 key (utf8Bytes p.signingString) = p.signature
  · by_cases hv : validClaims (e.clock w.reads) p.claims = true
    · simp [hs, hv]
    · simp [hs, hv]
  · simp [hs]

theorem GenerateToken_fst (lib : JWTLib) (s : AuthService) (e : Env) (w : World)
    (userID : ObjectID) (role : String) :
    (s.GenerateToken lib e w userID role).1
      = lib.signingString (s.issuedClaims e w userID role) ++ "."
          ++ lib.encodeSegment (s.issuedToken lib e w userID role).signature := rfl

theorem validClaims_issued (s : AuthService) (e : Env) (w : World) (userID : ObjectID)
    (role : String) (now : Time) :
    validClaims now (s.issuedClaims e w userID role) = decide (now < s.expiresAt e w * Second) := by
  simp [validClaims, AuthService.issuedClaims, AuthService.claimsAt, AuthService.expiresAt]

/-! ## Keys that HMAC cannot tell apart -/

/-- A key shorter than the block and the same key followed by a zero byte give the
same HMAC, whatever the digest: both are padded with zeros to the same block. -/
theorem hmac_zero_padded_key (H : List Nat → List Nat) (blockSize : Nat) (key msg : List Nat)
    (h : key.length < blockSize) : hmac H blockSize (key ++ [0]) msg = hmac H blockSize key msg := by
  unfold hmac
  have h₁ : ¬ (key ++ [0]).length > blockSize := by simp; omega
  have h₂ : ¬ key.length > blockSize := by omega
  simp only [h₁, h₂, if_false]
  have hpad : key ++ [0] ++ List.replicate (blockSize - (key ++ [0]).length) 0
      = key ++ List.replicate (blockSize - key.length) 0 := by
    have hlen : blockSize - key.length = (blockSize - (key ++ [0]).length) + 1 := by
      simp; omega
    rw [hlen, List.replicate_succ, List.append_assoc]
    rfl
  rw [hpad]

theorem utf8Bytes_append (a b : String) : utf8Bytes (a ++ b) = utf8Bytes a ++ utf8Bytes b := by
  simp [utf8Bytes, String.data_append]

/-! ## C8: issuing a token and presenting it to the middleware -/

/-- C8, as the code has it.  Let a token be issued by GenerateToken at clock reading
`t` and let the library parse it back faithfully.  Its expiry is the whole second
`expiresAt`, the instant `t + time.Duration(expiryHours) * time.Hour` cut down to a
second.  Presented as a bearer header to JWTAuth with the same secret, it is
accepted, with the issued identity and role in the claims, at every instant before
that second, and answered 401 at every instant at or after it, hence at every
instant at or after `t + expiryHours` hours.  For `0 < expiryHours ≤ 2562047` the
product does not wrap and the expiry second is the one that holds `t + expiryHours`
hours.  A middleware with another secret answers 401 whenever the HMAC of the
signing string under its secret differs from the token's signature; the secret
followed by a zero byte is not such a secret: HMAC pads both to the same key and the
token is accepted. -/
theorem C8_token_round_trip (lib : JWTLib) (s : AuthService) (e e' : Env) (w w' : World)
    (userID : ObjectID) (role : String)
    (hparse : lib.parse (s.GenerateToken lib e w userID role).1
        = some (s.issuedToken lib e w userID role)) :
    (e'.clock w'.reads < s.expiresAt e w * Second →
        ∃ c, (JWTAuth lib s.jwtSecret e' w' ("Bearer " ++ (s.GenerateToken lib e w userID role).1)).1 = .ok c
          ∧ c.UserID = userID ∧ c.Role = role)
    ∧ (s.expiresAt e w * Second ≤ e'.clock w'.reads →
        ∃ r, (JWTAuth lib s.jwtSecret e' w' ("Bearer " ++ (s.GenerateToken lib e w userID role).1)).1 = .error r
          ∧ r.status = 401)
    ∧ (0 < s.expiryHours → e.clock w.reads + s.expiryHours * Hour ≤ e'.clock w'.reads →
        ∃ r, (JWTAuth lib s.jwtSecret e' w' ("Bearer " ++ (s.GenerateToken lib e w userID role).1)).1 = .error r
          ∧ r.status = 401)
    ∧ (0 < s.expiryHours → s.expiryHours ≤ 2562047 →
        s.expiresAt e w * Second ≤ e.clock w.reads + s.expiryHours * Hour
        ∧ e.clock w.reads + s.expiryHours * Hour < s.expiresAt e w * Second + Second)
    ∧ (∀ secret', hmac lib.sha256 64 (utf8Bytes secret')
            (utf8Bytes (s.issuedToken lib e w userID role).signingString)
          ≠ (s.issuedToken lib e w userID role).signature →
        ∃ r, (JWTAuth lib secret' e' w' ("Bearer " ++ (s.GenerateToken lib e w userID role).1)).1 = .error r
          ∧ r.status = 401)
    ∧ ((utf8Bytes s.jwtSecret).length < 64 → e'.clock w'.reads < s.expiresAt e w * Second →
        ∃ c, (JWTAuth lib (s.jwtSecret ++ "\x00") e' w'
            ("Bearer " ++ (s.GenerateToken lib e w userID role).1)).1 = .ok c
          ∧ c.UserID = userID ∧ c.Role = role) := by
  have hP : ∀ secret, (ParseWithClaims lib e' w' (s.GenerateToken lib e w userID role).1 (utf8Bytes secret)).1
      = if hmac lib.sha256 64 (utf8Bytes secret) (utf8Bytes (s.issuedToken lib e w userID role).signingString)
              = (s.issuedToken lib e w userID role).signature
            ∧ validClaims (e'.clock w'.reads) (s.issuedToken lib e w userID role).claims = true
        then some (s.issuedToken lib e w userID role).claims else none :=
    fun secret => ParseWithClaims_HS256 lib e' w' _ _ _ hparse rfl
  have hvalid : validClaims (e'.clock w'.reads) (s.issuedToken lib e w userID role).claims
      = decide (e'.clock w'.reads < s.expiresAt e w * Second) := validClaims_issued s e w userID role _
  have hsig : hmac lib.sha256 64 (utf8Bytes s.jwtSecret)
      (utf8Bytes (s.issuedToken lib e w userID role).signingString)
        = (s.issuedToken lib e w userID role).signature := rfl
  have hreject : s.expiresAt e w * Second ≤ e'.clock w'.reads →
      ∃ r, (JWTAuth lib s.jwtSecret e' w' ("Bearer " ++ (s.GenerateToken lib e w userID role).1)).1 = .error r
        ∧ r.status = 401 := by
    intro hlate
    have hnot : ¬ e'.clock w'.reads < s.expiresAt e w * Second := not_lt.mpr hlate
    rw [JWTAuth_bearer, hP, hvalid]
    simp only [hnot, decide_False, Bool.false_eq_true, and_false, if_false]
    exact ⟨_, rfl, rfl⟩
  have hwrap : 0 < s.expiryHours → wrapInt64 (s.expiryHours * Hour) ≤ s.expiryHours * Hour := by
    intro hpos
    have key : ∀ x : Int, 0 < x →
        (x * 3600000000000 + 9223372036854775808) % 18446744073709551616 - 9223372036854775808
          ≤ x * 3600000000000 := by
      intro x hx
      omega
    exact key _ hpos
  have hexp : s.expiresAt e w * Second ≤ e.clock w.reads + wrapInt64 (s.expiryHours * Hour)
      ∧ e.clock w.reads + wrapInt64 (s.expiryHours * Hour) < s.expiresAt e w * Second + Second := by
    have key : ∀ x : Int, x / 1000000000 * 1000000000 ≤ x
        ∧ x < x / 1000000000 * 1000000000 + 1000000000 := by
      intro x
      constructor <;> omega
    exact key _
  refine ⟨?_, hreject, ?_, ?_, ?_, ?_⟩
  · intro hearly
    rw [JWTAuth_bearer, hP, hvalid]
    simp only [hsig, hearly, decide_True, and_self, if_true]
    exact ⟨_, rfl, rfl, rfl⟩
  · intro hpos hlate
    exact hreject (le_trans hexp.1 (le_trans (add_le_add_left (hwrap hpos) _) hlate))
  · intro hpos hle
    have key : ∀ x : Int, 0 < x → x ≤ 2562047 →
        (x * 3600000000000 + 9223372036854775808) % 18446744073709551616 - 9223372036854775808
          = x * 3600000000000 := by
      intro x hx hx'
      omega
    have hw : wrapInt64 (s.expiryHours * Hour) = s.expiryHours * Hour := key _ hpos hle
    rw [hw] at hexp
    exact hexp
  · intro secret' hne
    rw [JWTAuth_bearer, hP]
    simp only [hne, false_and, if_false]
    exact ⟨_, rfl, rfl⟩
  · intro hlen hearly
    have hkey : hmac lib.sha256 64 (utf8Bytes (s.jwtSecret ++ "\x00"))
        (utf8Bytes (s.issuedToken lib e w userID role).signingString)
          = (s.issuedToken lib e w userID role).signature := by
      rw [utf8Bytes_append]
      have h0 : utf8Bytes "\x00" = [0] := by decide
      rw [h0, hmac_zero_padded_key _ _ _ _ hlen]
      exact hsig
    rw [JWTAuth_bearer, hP, hvalid]
    simp only [hkey, hearly, decide_True, and_self, if_true]
    exact ⟨_, rfl, rfl, rfl⟩

/-- C8 at a concrete input: the sample token, issued at 0 s for one hour with secret
"k", is accepted right after issuing with identity 7 and role "user", and answered
401 by a middleware whose secret is "j". -/
theorem C8_token_round_trip_witness :
    (∃ c, (JWTAuth sampleLib "k" quietEnv (sampleAuth.GenerateToken sampleLib quietEnv emptyWorld 7 "user").2
          ("Bearer " ++ (sampleAuth.GenerateToken sampleLib quietEnv emptyWorld 7 "user").1)).1 = .ok c
        ∧ c.UserID = 7 ∧ c.Role = "user")
    ∧ (∃ r, (JWTAuth sampleLib "j" quietEnv (sampleAuth.GenerateToken sampleLib quietEnv emptyWorld 7 "user").2
          ("Bearer " ++ (sampleAuth.GenerateToken sampleLib quietEnv emptyWorld 7 "user").1)).1 = .error r
        ∧ r.status = 401) :=
  ⟨(C8_token_round_trip sampleLib sampleAuth quietEnv quietEnv emptyWorld
      (sampleAuth.GenerateToken sampleLib quietEnv emptyWorld 7 "user").2 7 "user" (by decide)).1
      (by decide),
   (C8_token_round_trip sampleLib sampleAuth quietEnv quietEnv emptyWorld
      (sampleAuth.GenerateToken sampleLib quietEnv emptyWorld 7 "user").2 7 "user" (by decide)).2.2.2.2.1
      "j" (by decide)⟩

/-- C8 as stated fails.  The sample token is issued at 0.5 s for one hour and parses
back faithfully; at 3600.2 s, before 0.5 s + 1 h, the middleware with the same
secret answers 401, because the expiry was cut down to second 3600.  The token
signed with "k" is accepted by a middleware whose secret is "k" followed by a zero
byte.  And a service configured with 2562048 hours issues a token whose expiry lies
before its issue time. -/
theorem C8_round_trip_fails :
    sampleLib.parse (sampleAuth.GenerateToken sampleLib tokenEnv emptyWorld 7 "user").1
        = some (sampleAuth.issuedToken sampleLib tokenEnv emptyWorld 7 "user")
    ∧ tokenEnv.clock 2 < tokenEnv.clock 0 + sampleAuth.expiryHours * Hour
    ∧ (JWTAuth sampleLib "k" tokenEnv (sampleAuth.GenerateToken sampleLib tokenEnv emptyWorld 7 "user").2
          ("Bearer " ++ (sampleAuth.GenerateToken sampleLib tokenEnv emptyWorld 7 "user").1)).1
        = .error (unauthorized
            "\x7b\"error\":\"invalid_token\",\"message\":\"Invalid or expired token\"\x7d")
    ∧ "k" ≠ "k\x00"
    ∧ (JWTAuth sampleLib "k\x00" quietEnv (sampleAuth.GenerateToken sampleLib quietEnv emptyWorld 7 "user").2
          ("Bearer " ++ (sampleAuth.GenerateToken sampleLib quietEnv emptyWorld 7 "user").1)).1
        = .ok sampleClaims
    ∧ (0 : Int) < 2562048
    ∧ ({ jwtSecret := "k", expiryHours := 2562048 } : AuthService).expiresAt tokenEnv emptyWorld * Second
        < tokenEnv.clock 0 := by
  refine ⟨by decide, by decide, by rfl, by decide, by rfl, by decide, by decide⟩

/-! ## C11: the shape of the response bodies -/

/-- C11, as the code has it.  Whatever the request and the environment: GetByID,
Update and List answer either 200 with a utils.SuccessResponse around the task(s) or
an error; Login answers either 200 with a utils.SuccessResponse around the login
response or an error; Check answers either 200 with the flat map holding `status` or
an error; Delete answers either 204 without a body or an error; Create answers
either 201 or an error.  A utils.SuccessResponse encodes to an object whose only
member is `data`, the login response inside it to `token` and `user`, the health
map to `status`, and the body of every error answer to exactly `error` and
`message`. -/
theorem C11_response_envelope (lib : JWTLib) (isEmail : String → Bool) (s : AuthService)
    (e : Env) (w : World) (idStr : String) (user : Option Claims) (task : Option Task)
    (updates : Option Doc) (query : List (String × String)) (login : Option LoginRequest) :
    ((∃ t, (TaskHandler.GetByID e w idStr).1.wraps (.taskPtr (some t)))
        ∨ (TaskHandler.GetByID e w idStr).1.isError)
    ∧ ((∃ t, (TaskHandler.Update e w idStr user updates).1.wraps (.taskPtr t))
        ∨ (TaskHandler.Update e w idStr user updates).1.isError)
    ∧ ((∃ ts, (TaskHandler.List e w user query).1.wraps (.tasks ts))
        ∨ (TaskHandler.List e w user query).1.isError)
    ∧ ((∃ token u, (AuthHandler.Login lib isEmail s e w login).1.wraps (.LoginResponse token u))
        ∨ (AuthHandler.Login lib isEmail s e w login).1.isError)
    ∧ ((HealthHandler.Check e w).1 = WriteJSON 200 (.stringMap [("status", "ok")])
        ∨ (HealthHandler.Check e w).1.isError)
    ∧ ((TaskHandler.Delete e w idStr user).1 = { status := 204, body := none }
        ∨ (TaskHandler.Delete e w idStr user).1.isError)
    ∧ ((TaskHandler.Create e w user task).1.status = 201
        ∨ (TaskHandler.Create e w user task).1.isError)
    ∧ (∀ p, (Payload.SuccessResponse p).members = ["data"])
    ∧ (∀ token u, (Payload.LoginResponse token u).members = ["token", "user"])
    ∧ (Payload.stringMap [("status", "ok")]).members = ["status"]
    ∧ (∀ r : Response, r.isError → ∃ p, r.body = some p ∧ p.members = ["error", "message"]) := by
  refine ⟨?_, ?_, ?_, ?_, ?_, ?_, ?_, fun _ => rfl, fun _ _ => rfl, rfl, ?_⟩
  · unfold TaskHandler.GetByID
    repeat' split
    all_goals simp [Response.isError, Response.wraps, WriteError, WriteJSON, WriteSuccess]
  · unfold TaskHandler.Update
    dsimp only
    repeat' split
    all_goals simp [Response.isError, Response.wraps, WriteError, WriteJSON, WriteSuccess]
  · unfold TaskHandler.List
    repeat' split
    all_goals simp [Response.isError, Response.wraps, WriteError, WriteJSON, WriteSuccess]
  · unfold AuthHandler.Login
    repeat' split
    all_goals simp [Response.isError, Response.wraps, WriteError, WriteJSON, WriteSuccess]
  · unfold HealthHandler.Check
    repeat' split
    all_goals simp [Response.isError, Response.wraps, WriteError, WriteJSON, WriteSuccess]
  · unfold TaskHandler.Delete
    repeat' split
    all_goals simp [Response.isError, Response.wraps, WriteError, WriteJSON, WriteSuccess]
  · unfold TaskHandler.Create
    dsimp only
    repeat' split
    all_goals simp [Response.isError, Response.wraps, WriteError, WriteJSON, WriteSuccess]
  · rintro r ⟨_, err, msg, hbody⟩
    exact ⟨_, hbody, rfl⟩

/-- C11 as stated fails.  Alice's successful create is answered 201 with the task
itself as body: its top-level members are those of the task and `data` is not among
them.  The admin's successful login is answered 200 with the login response inside
the envelope: the only top-level member is `data`, not `token` and `user`. -/
theorem C11_create_flat_login_wrapped :
    (TaskHandler.Create quietEnv emptyWorld (some alice) (some payloadA)).1.status = 201
    ∧ (TaskHandler.Create quietEnv emptyWorld (some alice) (some payloadA)).1.body.map Payload.members
        = some ["id", "title", "description", "status", "owner_id", "created_at", "updated_at"]
    ∧ (AuthHandler.Login sampleLib (fun _ => true) sampleAuth quietEnv emptyWorld (some adminLogin)).1.status
        = 200
    ∧ (AuthHandler.Login sampleLib (fun _ => true) sampleAuth quietEnv emptyWorld
        (some adminLogin)).1.body.map Payload.members = some ["data"] := by
  refine ⟨by decide, by decide, by decide, by decide⟩

/-! ## The data-model invariant across Create and Delete -/

theorem validStored_of_valid (T : Task) (id : ObjectID) (h : ValidateStruct T = []) :
    validStored (("_id", .oid id) :: T.toDocBody) := by
  unfold ValidateStruct at h
  rw [List.append_eq_nil, List.append_eq_nil, validateTitle_nil, validateDescription_nil,
    validateStatus_nil] at h
  obtain ⟨⟨ht, hd⟩, hs⟩ := h
  have ht₁ : T.Title ≠ "" := fun h0 => ht (Or.inl h0)
  have ht₂ : ¬ T.Title.length > 200 := fun h0 => ht (Or.inr h0)
  have ht₃ := length_pos_of_ne_empty T.Title ht₁
  refine ⟨⟨T.Title, rfl, by omega, by omega⟩, ⟨T.Description, rfl, by omega⟩, ?_⟩
  rcases hs with hs | hs | hs
  · exact Or.inl (by simp [Doc.get, Task.toDocBody, List.lookup, hs])
  · exact Or.inr (Or.inl (by simp [Doc.get, Task.toDocBody, List.lookup, hs]))
  · exact Or.inr (Or.inr (by simp [Doc.get, Task.toDocBody, List.lookup, hs]))

theorem InsertOne_tasks_form (e : Env) (w : World) (t : Task) :
    (Collection.InsertOne e w t).2.tasks = w.tasks
      ∨ ∃ id, (Collection.InsertOne e w t).2.tasks = w.tasks ++ [("_id", .oid id) :: t.toDocBody] := by
  unfold Collection.InsertOne roundTrip NewObjectID
  dsimp only
  by_cases hz : t.ID = NilObjectID
  · simp only [hz, if_true]
    split
    · exact Or.inl rfl
    · split
      · exact Or.inl rfl
      · exact Or.inr ⟨_, rfl⟩
  · simp only [hz, if_false]
    split
    · exact Or.inl rfl
    · split
      · exact Or.inl rfl
      · exact Or.inr ⟨_, rfl⟩

theorem invariant_append (w w' : World) (d : Doc) (h : w'.tasks = w.tasks ++ [d])
    (hw : w.dataModelInvariant) (hd : validStored d) : w'.dataModelInvariant := by
  intro x hx hlive
  rw [h, List.mem_append, List.mem_singleton] at hx
  rcases hx with hx | hx
  · exact hw x hx hlive
  · rw [hx]; exact hd

theorem invariant_congr (w w' : World) (h : w'.tasks = w.tasks) (hw : w.dataModelInvariant) :
    w'.dataModelInvariant := by
  intro x hx hlive
  rw [h] at hx
  exact hw x hx hlive

theorem Create_keeps_invariant (e : Env) (w : World) (task : Task) (hv : ValidateStruct task = [])
    (hw : w.dataModelInvariant) : (TaskDAO.Create e w task).2.dataModelInvariant := by
  have hform := InsertOne_tasks_form e
    { tasks := w.tasks, trace := w.trace, reads := w.reads + 1 + 1, minted := w.minted + 1 }
    { task with ID := e.oids w.minted, CreatedAt := e.clock w.reads,
                UpdatedAt := e.clock (w.reads + 1) }
  rcases hform with h | ⟨id, h⟩
  · exact invariant_congr w _ h hw
  · exact invariant_append w _ _ h hw (validStored_of_valid _ id hv)

theorem mem_updateFirst (p : Doc → Bool) (f : Doc → Doc) (l : List Doc) (x : Doc)
    (h : x ∈ updateFirst p f l) : x ∈ l ∨ ∃ d ∈ l, x = f d := by
  induction l with
  | nil => simp [updateFirst] at h
  | cons y ys ih =>
    unfold updateFirst at h
    by_cases hp : p y = true
    · rw [if_pos hp] at h
      rcases List.mem_cons.mp h with h₁ | h₁
      · exact Or.inr ⟨y, List.mem_cons_self _ _, h₁⟩
      · exact Or.inl (List.mem_cons_of_mem _ h₁)
    · rw [if_neg hp] at h
      rcases List.mem_cons.mp h with h₁ | h₁
      · exact Or.inl (h₁ ▸ List.mem_cons_self _ _)
      · rcases ih h₁ with h₂ | ⟨d, hd, hx⟩
        · exact Or.inl (List.mem_cons_of_mem _ h₂)
        · exact Or.inr ⟨d, List.mem_cons_of_mem _ hd, hx⟩

theorem Delete_keeps_invariant (e : Env) (w : World) (id : ObjectID) (hw : w.dataModelInvariant) :
    (TaskDAO.Delete e w id).2.dataModelInvariant := by
  intro x hx hlive
  rw [Delete_tasks] at hx
  split at hx
  · exact hw x hx hlive
  · rcases mem_updateFirst _ _ _ x hx with h | ⟨d, _, h⟩
    · exact hw x h hlive
    · rw [h, notDeleted_after_delete] at hlive
      exact absurd hlive (by simp)

/-- The invariant holds after every Create request and is kept by every Delete
request, whatever the caller, the body and the environment. -/
theorem invariant_kept_by_create_and_delete (e : Env) (w : World) (user : Option Claims)
    (body : Option Task) (idStr : String) (hw : w.dataModelInvariant) :
    (TaskHandler.Create e w user body).2.dataModelInvariant
    ∧ (TaskHandler.Delete e w idStr user).2.dataModelInvariant := by
  constructor
  · unfold TaskHandler.Create
    dsimp only
    split
    · exact hw
    · split
      · exact hw
      · split
        · exact hw
        · next hv =>
          have h := Create_keeps_invariant e w _ hv hw
          split
          · next heq => rw [heq] at h; exact h
          · next heq => rw [heq] at h; exact h
  · unfold TaskHandler.Delete
    split
    · exact hw
    · next i hi =>
      split
      · exact hw
      · have hg := GetByID_world e w i
        rcases hget : TaskDAO.GetByID e w i with ⟨r₁, w₁⟩
        rw [hget] at hg
        simp only at hg
        have hw₁ : w₁.dataModelInvariant := invariant_congr w w₁ (by rw [hg]; rfl) hw
        cases r₁ with
        | error err => exact hw₁
        | ok task =>
          dsimp only
          split
          · exact hw₁
          · have hd := Delete_keeps_invariant e w₁ i hw₁
            rcases hdel : TaskDAO.Delete e w₁ i with ⟨r₂, w₂⟩
            rw [hdel] at hd
            cases r₂ with
            | some err => exact hd
            | none => exact hd

/-! ## C12: Update writes unvalidated values -/

/-- C12 at the failing inputs.  The collection holding alice's task meets the
invariant.  Her PATCH with status "bogus" is answered 200 and the stored record then
has that status; her PATCH with an empty title is answered 200 and the stored title
is empty; her PATCH with the number 5 as title is answered 200, the stored title is
that number, and a GET of the task is then answered 404.  After each of the three
the invariant no longer holds. -/
theorem C12_update_breaks_invariant :
    worldA.dataModelInvariant
    ∧ (TaskHandler.Update quietEnv worldA hexOne (some alice) (some [("status", .str "bogus")])).1.status = 200
    ∧ ¬ (TaskHandler.Update quietEnv worldA hexOne (some alice)
          (some [("status", .str "bogus")])).2.dataModelInvariant
    ∧ (TaskHandler.Update quietEnv worldA hexOne (some alice) (some [("title", .str "")])).1.status = 200
    ∧ ¬ (TaskHandler.Update quietEnv worldA hexOne (some alice)
          (some [("title", .str "")])).2.dataModelInvariant
    ∧ (TaskHandler.Update quietEnv worldA hexOne (some alice) (some [("title", .num 5)])).1.status = 200
    ∧ ¬ (TaskHandler.Update quietEnv worldA hexOne (some alice)
          (some [("title", .num 5)])).2.dataModelInvariant
    ∧ (TaskHandler.GetByID quietEnv
          (TaskHandler.Update quietEnv worldA hexOne (some alice) (some [("title", .num 5)])).2
          hexOne).1.status = 404 := by
  refine ⟨?_, by decide, ?_, by decide, ?_, by decide, ?_, by decide⟩
  · exact (invariant_kept_by_create_and_delete quietEnv emptyWorld (some alice) (some payloadA) ""
      (fun d hd => absurd hd (List.not_mem_nil d))).1
  · intro h
    have hd : ∃ d, (TaskHandler.Update quietEnv worldA hexOne (some alice)
          (some [("status", .str "bogus")])).2.tasks = [d]
        ∧ notDeleted d = true ∧ d.get "status" = some (.str "bogus") := ⟨_, rfl, rfl, rfl⟩
    obtain ⟨d, ht, hl, hs⟩ := hd
    have hv := h d (by rw [ht]; exact List.mem_singleton.mpr rfl) hl
    rcases hv.2.2 with h1 | h1 | h1 <;> (rw [hs] at h1; simp at h1)
  · intro h
    have hd : ∃ d, (TaskHandler.Update quietEnv worldA hexOne (some alice)
          (some [("title", .str "")])).2.tasks = [d]
        ∧ notDeleted d = true ∧ d.get "title" = some (.str "") := ⟨_, rfl, rfl, rfl⟩
    obtain ⟨d, ht, hl, hs⟩ := hd
    have hv := h d (by rw [ht]; exact List.mem_singleton.mpr rfl) hl
    obtain ⟨s, hget, hlen, _⟩ := hv.1
    rw [hs] at hget
    simp at hget
    rw [← hget] at hlen
    exact absurd hlen (by decide)
  · intro h
    have hd : ∃ d, (TaskHandler.Update quietEnv worldA hexOne (some alice)
          (some [("title", .num 5)])).2.tasks = [d]
        ∧ notDeleted d = true ∧ d.get "title" = some (.num 5) := ⟨_, rfl, rfl, rfl⟩
    obtain ⟨d, ht, hl, hs⟩ := hd
    have hv := h d (by rw [ht]; exact List.mem_singleton.mpr rfl) hl
    obtain ⟨s, hget, _, _⟩ := hv.1
    rw [hs] at hget
    simp at hget

/-! ## C13: what Create takes from the body -/

/-- When TaskHandler.Create answers 201 with task `t`, the id and the two timestamps
of `t` are the fresh id and the two clock readings, whatever the body held, and the
document appended to the collection has a `deleted_at` member exactly when the body
had a deleted timestamp, holding that timestamp. -/
theorem Create_server_assigned (e : Env) (w : World) (U : Claims) (body t : Task)
    (hcreate : (TaskHandler.Create e w (some U) (some body)).1 = WriteJSON 201 (.task t)) :
    t.ID = e.oids w.minted ∧ t.CreatedAt = e.clock w.reads ∧ t.UpdatedAt = e.clock (w.reads + 1)
    ∧ t.DeletedAt = body.DeletedAt
    ∧ ∃ d, (TaskHandler.Create e w (some U) (some body)).2.tasks = w.tasks ++ [d]
        ∧ d.get "deleted_at" = body.DeletedAt.map (fun x => Value.date (toDateTime x))
        ∧ d.get "created_at" = some (.date (toDateTime (e.clock w.reads)))
        ∧ d.get "updated_at" = some (.date (toDateTime (e.clock (w.reads + 1)))) := by
  unfold TaskHandler.Create at hcreate ⊢
  dsimp only at hcreate ⊢
  split at hcreate
  · simp [WriteError, WriteJSON] at hcreate
  · next heq =>
    unfold TaskDAO.Create NewObjectID timeNow at hcreate ⊢
    dsimp only at hcreate ⊢
    generalize hT : (if ({ body with OwnerID := U.UserID } : Task).Status = ""
        then ({ body with OwnerID := U.UserID, Status := StatusOpen } : Task)
        else { body with OwnerID := U.UserID }) = T at hcreate ⊢
    have hTd : T.DeletedAt = body.DeletedAt := by
      rw [← hT]
      split <;> rfl
    rcases hins : Collection.InsertOne e
        { tasks := w.tasks, trace := w.trace, reads := w.reads + 1 + 1, minted := w.minted + 1 }
        { T with ID := e.oids w.minted, CreatedAt := e.clock w.reads,
                 UpdatedAt := e.clock (w.reads + 1) } with ⟨err, w₄⟩
    rw [hins] at hcreate
    cases err with
    | some err => simp [WriteError, WriteJSON] at hcreate
    | none =>
      simp only [WriteJSON, Response.mk.injEq, Option.some.injEq, Payload.task.injEq, true_and] at hcreate
      subst hcreate
      have hok := InsertOne_ok e _ _ (by rw [hins])
      rw [hins] at hok
      obtain ⟨id, htasks⟩ := hok
      dsimp only at htasks ⊢
      refine ⟨rfl, rfl, rfl, hTd, _, htasks, ?_, rfl, rfl⟩
      rw [← hTd]
      cases hdel : T.DeletedAt with
      | none => simp [Doc.get, Task.toDocBody, List.lookup, hdel]
      | some x => simp [Doc.get, Task.toDocBody, List.lookup, hdel]

/-- C13 at the failing input.  Alice's body holds title "A" and a deleted timestamp;
it passes validation and is answered 201 with id 1, the one stored record carries
that deleted timestamp, and the lookup of id 1 right after fails: TaskDAO.GetByID
finds no document and the GET is answered 404. -/
theorem C13_deleted_at_from_body_is_stored :
    (TaskHandler.Create quietEnv emptyWorld (some alice) (some payloadDeleted)).1
        = WriteJSON 201 (.task { taskA with DeletedAt := some 5000000 })
    ∧ (∃ d, (TaskHandler.Create quietEnv emptyWorld (some alice) (some payloadDeleted)).2.tasks = [d]
        ∧ d.get "_id" = some (.oid 1) ∧ d.get "deleted_at" = some (.date 5))
    ∧ (TaskDAO.GetByID quietEnv
        (TaskHandler.Create quietEnv emptyWorld (some alice) (some payloadDeleted)).2 1).1
        = .error .NoDocuments
    ∧ (TaskHandler.GetByID quietEnv
        (TaskHandler.Create quietEnv emptyWorld (some alice) (some payloadDeleted)).2 hexOne).1
        = WriteError 404 "not_found" "Task not found" := by
  refine ⟨by decide, ⟨_, rfl, rfl, rfl⟩, by rfl, by decide⟩

end TaskAPI
